import Mathlib

/-!
Verification development for the character-builder engine
(src/character_builder: models.py, rules.py, state.py).

The Python code is shallowly embedded: Python dicts become insertion-ordered
association lists, Python sets become `Finset String`, Python ints become
`Int` (with floor division for `//`), and `None`-able values become `Option`.
Randomness (`random.choice`, `random.choices`, `random.sample`) is supplied
through an explicit oracle of indices; weighted draws are modelled as
oracle-indexed picks, since weights in the source are strictly positive and
therefore only shape the distribution, never the support.  `random.choice`
on an empty sequence is modelled as an `Except.error`, matching the
`IndexError` Python would raise.
-/

set_option maxHeartbeats 1000000

/-- Association-list lookup, the embedding of Python `dict.get`. -/
def lookupL {α : Type} (m : List (String × α)) (k : String) : Option α :=
  (m.find? (fun p => p.1 = k)).map (fun p => p.2)

/-- Association-list lookup keyed by `Int` (for per-level class records). -/
def lookupI {α : Type} (m : List (Int × α)) (k : Int) : Option α :=
  (m.find? (fun p => p.1 = k)).map (fun p => p.2)

/-- Association-list lookup keyed by `Nat` (for spell-slot tables). -/
def lookupN {α : Type} (m : List (Nat × α)) (k : Nat) : Option α :=
  (m.find? (fun p => p.1 = k)).map (fun p => p.2)

/-- Python `dict[k] = v`: replace the value if the key exists (keeping its
position), otherwise append the new binding at the end. -/
def dictSet {α : Type} (m : List (String × α)) (k : String) (v : α) :
    List (String × α) :=
  if (m.find? (fun p => p.1 = k)).isSome then
    m.map (fun p => if p.1 = k then (p.1, v) else p)
  else
    m ++ [(k, v)]

/-- Python `dict[k] += v` on an ability-score dictionary.  The source would
raise `KeyError` for a key that is not present; the claims are settled over
datasets whose ability-bonus keys are among the six abilities, so the
out-of-domain behaviour (here: no-op) is never exercised. -/
def abAdd (m : List (String × Int)) (k : String) (v : Int) :
    List (String × Int) :=
  m.map (fun p => if p.1 = k then (p.1, p.2 + v) else p)

/-- `random.choice(seq)`: raises `IndexError` on an empty sequence, otherwise
returns the element the oracle index `k` designates. -/
def pyChoice {α : Type} (k : Nat) : List α → Except String α
  | [] => Except.error "IndexError: cannot choose from an empty sequence"
  | x :: xs => Except.ok ((x :: xs).getD (k % (xs.length + 1)) x)

/-- `random.sample(pool, n)`: `n` elements of `pool`; the oracle rotation `k`
stands for the sampling randomness (a rotation is a permutation, so the
result is always a selection of elements of `pool`). -/
def sampleList {α : Type} (k : Nat) (pool : List α) (n : Nat) : List α :=
  (pool.rotate k).take n

/-- Python slice `l[:n]`, including the negative-index convention. -/
def pySliceTo {α : Type} (l : List α) (n : Int) : List α :=
  if 0 ≤ n then l.take n.toNat else l.take (l.length - (-n).toNat)

/-- Python truthiness of an optional string (`None` and `""` are falsy). -/
def truthyOpt : Option String → Bool
  | none => false
  | some s => if s = "" then false else true

/-- Python `str.strip()` on the character list of a string. -/
def stripChars (l : List Char) : List Char :=
  ((l.dropWhile Char.isWhitespace).reverse.dropWhile Char.isWhitespace).reverse

/-- Python `str.strip()`. -/
def pyStrip (s : String) : String := String.mk (stripChars s.data)

/-- Python `str.lower()` (character-wise lowering over the string's
characters; agrees with the source's ASCII identifiers). -/
def pyLower (s : String) : String := String.mk (s.data.map Char.toLower)

/-- `max(0, int(round(float(value))))` from `_ensure_positive_int`,
specialised to integer inputs (all call sites pass ints). -/
def ensurePositiveInt (v : Int) : Int := max 0 v

/-- `constants.ABILITY_SCORES`. -/
def ABILITY_SCORES : List String := ["str", "dex", "con", "int", "wis", "cha"]

/-- `state.STANDARD_ARRAY`. -/
def STANDARD_ARRAY : List Int := [15, 14, 13, 12, 10, 8]

/-- `state.PREPARED_CASTER_CLASSES`. -/
def preparedCasterClasses : List String := ["cleric", "druid", "paladin", "wizard"]

/-- `state.LEVEL_WEIGHTS` (all strictly positive, so the weighted level draw
has full support over 1..20 and is modelled as an oracle-indexed pick). -/
def LEVEL_WEIGHTS : List Nat :=
  [20, 18, 16, 14, 12, 10, 9, 8, 7, 6, 5, 4, 4, 4, 3, 3, 2, 2, 2, 1]

/-- `state.CLASS_ABILITY_PRIORITIES`. -/
def classAbilityPriorities : List (String × List String) :=
  [("barbarian", ["str", "con", "dex", "wis", "cha", "int"]),
   ("bard", ["cha", "dex", "con", "wis", "int", "str"]),
   ("cleric", ["wis", "con", "str", "dex", "int", "cha"]),
   ("druid", ["wis", "con", "dex", "int", "str", "cha"]),
   ("fighter", ["str", "con", "dex", "wis", "cha", "int"]),
   ("monk", ["dex", "wis", "con", "str", "int", "cha"]),
   ("paladin", ["str", "cha", "con", "wis", "dex", "int"]),
   ("ranger", ["dex", "wis", "con", "str", "int", "cha"]),
   ("rogue", ["dex", "int", "cha", "wis", "con", "str"]),
   ("sorcerer", ["cha", "con", "dex", "wis", "int", "str"]),
   ("warlock", ["cha", "con", "dex", "wis", "int", "str"]),
   ("wizard", ["int", "dex", "con", "wis", "cha", "str"])]

/-- A `choose N of M` block's option entry, after the dict-shape dispatch of
`_choice_group_from_option_block`: a plain item reference (`index`, `name`),
a nested sub-choice (its own `choose` plus entries), or an entry whose item
is falsy and which is skipped. -/
inductive OptEntry where
  | skip : OptEntry
  | item : Option String → Option String → OptEntry
  | nested : Int → List OptEntry → OptEntry

/-- A `choose N of M` block (`{"choose": n, "from"/"options": ..., "desc"}`).
The several accepted dict shapes for the option list all collapse to the
extracted entry list; a block whose option container is unusable is
represented by an empty entry list (both yield no group). -/
structure OptionBlock where
  choose : Int
  entries : List OptEntry
  desc : Option String := none

/-- `state.ChoiceOption`. -/
structure ChoiceOption where
  id : String
  label : String
  kind : String
  index : Option String := none
deriving DecidableEq

/-- `state.ChoiceGroup`. -/
structure ChoiceGroup where
  id : String
  source : String
  name : String
  choose : Int
  options : List ChoiceOption
  description : Option String := none
deriving DecidableEq

/-- `state._infer_option_kind`. -/
def inferOptionKind : Option String → String
  | none => "misc"
  | some idx =>
    if idx = "" then "misc"
    else if idx.startsWith "skill-" then "skill"
    else if idx.startsWith "language-" then "language"
    else if idx.startsWith "tool-" then "tool"
    else if idx.startsWith "instrument-" then "tool"
    else if idx.startsWith "armor-" then "equipment"
    else if idx.startsWith "weapon-" then "equipment"
    else if idx.startsWith "saving-throw-" then "saving-throw"
    else if idx.startsWith "ability-score-" then "ability"
    else "misc"

/-- One option of `_choice_group_from_option_block` (lines building `index`,
`label`, `kind` and `option_id` from an item reference). -/
def mkChoiceOption (hint : Option String) (rawIndex rawName : Option String) :
    ChoiceOption :=
  let index := rawIndex.map pyLower
  let fromIndex : String :=
    match index with
    | some i => if i = "" then "Option" else i
    | none => "Option"
  let label : String :=
    match rawName with
    | some n => if n = "" then fromIndex else n
    | none => fromIndex
  let kind : String :=
    match hint with
    | some h => h
    | none => inferOptionKind index
  let optionId : String :=
    match index with
    | some i => if i = "" then pyLower label else i
    | none => pyLower label
  ⟨optionId, label, kind, index⟩

mutual

/-- Option extraction for a single entry of a choice block: an item yields one
option; a nested sub-choice contributes its flattened options exactly when the
recursive call of `_choice_group_from_option_block` would produce a group
(non-empty options and non-zero choose). -/
def entryOptions (hint : Option String) : OptEntry → List ChoiceOption
  | .skip => []
  | .item i n => [mkChoiceOption hint i n]
  | .nested ch es =>
    let opts := flattenEntries hint es
    if opts = [] ∨ ch = 0 then [] else opts

/-- Option extraction over a list of entries. -/
def flattenEntries (hint : Option String) : List OptEntry → List ChoiceOption
  | [] => []
  | e :: rest => entryOptions hint e ++ flattenEntries hint rest

end

/-- `state._choice_group_from_option_block` (group-level behaviour): no group
when the flattened options are empty or `choose` is zero. -/
def choiceGroupFromOptionBlock (gid src nm : String) (b : OptionBlock)
    (hint : Option String) : Option ChoiceGroup :=
  let opts := flattenEntries hint b.entries
  if opts = [] ∨ b.choose = 0 then none
  else some ⟨gid, src, nm, b.choose, opts, b.desc⟩

/-- A spell record, as consumed by `spells_by_level` via the dataset lookups
`spells_for_class` / `spells_for_subclass` (the lookup service itself is an
external collaborator; membership is recorded directly on the record). -/
structure Spell where
  index : String
  level : Nat
  classIndexes : List String := []
  subclassIndexes : List String := []
deriving DecidableEq

/-- The spellcasting slice of one `ClassLevel` record (`cantrips_known`,
`spells_known`, `spell_slots_level_N`). -/
structure SpellcastingInfo where
  cantripsKnown : Nat := 0
  spellsKnown : Option Nat := none
  slots : List (Nat × Nat) := []
deriving DecidableEq

/-- `data.srd.ClassLevel`, restricted to the field the engine reads. -/
structure ClassLevelD where
  spellcasting : Option SpellcastingInfo := none
deriving DecidableEq

/-- `data.srd.SubclassData`, restricted to the fields the engine reads
(`features_by_level.keys()`). -/
structure SubclassD where
  index : String
  featureLevels : List Int := []
deriving DecidableEq

/-- `data.srd.ClassData`, restricted to the fields the engine reads. -/
structure ClassD where
  index : String
  name : String := ""
  hitDie : Int := 8
  proficiencyChoices : List OptionBlock := []
  subclasses : List (String × SubclassD) := []
  levels : List (Int × ClassLevelD) := []
  spellcastingAbility : Option String := none

/-- `data.srd.SubraceData`, restricted to the fields the engine reads.
`abilityBonuses` lists `(ability_score.index, bonus)` pairs. -/
structure SubraceD where
  index : String
  name : String := ""
  abilityBonuses : List (String × Int) := []
  languageOptions : Option OptionBlock := none

/-- `data.srd.RaceData`, restricted to the fields the engine reads. -/
structure RaceD where
  index : String
  name : String := ""
  abilityBonuses : List (String × Int) := []
  languageOptions : Option OptionBlock := none
  startingProficiencyOptions : Option OptionBlock := none
  subraces : List (String × SubraceD) := []

/-- A background record, restricted to the fields the engine reads. -/
structure BackgroundD where
  index : String
  name : String := ""
  languageOptions : Option OptionBlock := none

/-- The read-only rules dataset (`SRDData`): insertion-ordered index maps.
`equipment` maps an equipment index to its `equipment_category.index`. -/
structure Dataset where
  races : List (String × RaceD) := []
  classes : List (String × ClassD) := []
  backgrounds : List (String × BackgroundD) := []
  alignments : List String := []
  spells : List Spell := []
  equipment : List (String × String) := []

/-- `models.CharacterState.currency` (five denominations). -/
structure Currency where
  pp : Int := 0
  gp : Int := 0
  ep : Int := 0
  sp : Int := 0
  cp : Int := 0
deriving DecidableEq

/-- `models.CharacterState`.  Ability dictionaries are association lists over
the six ability keys; `selected_spells` is represented by its two buckets
`spellsKnown` / `spellsPrepared` (the engine only ever uses the keys
`"known"` and `"prepared"`).  The `derived` cache and the
`automatic_*` sets recomputed by `_refresh_derived` are derived data,
modelled by the pure `rules` functions below rather than stored. -/
structure Draft where
  name : String := "New Adventurer"
  level : Int := 1
  race : Option String := none
  subrace : Option String := none
  background : Option String := none
  characterClass : Option String := none
  subclass : Option String := none
  alignment : Option String := none
  gender : Option String := none
  baseAbilityScores : List (String × Int) := ABILITY_SCORES.map (fun a => (a, 10))
  racialAbilityBonuses : List (String × Int) := ABILITY_SCORES.map (fun a => (a, 0))
  subraceAbilityBonuses : List (String × Int) := ABILITY_SCORES.map (fun a => (a, 0))
  manualAbilityBonuses : List (String × Int) := ABILITY_SCORES.map (fun a => (a, 0))
  manualHitPoints : Option Int := none
  selectedSkillProficiencies : Finset String := ∅
  selectedSkillExpertise : Finset String := ∅
  selectedToolProficiencies : Finset String := ∅
  selectedLanguages : Finset String := ∅
  selectedFeats : List String := []
  choiceSelections : List (String × Finset String) := []
  spellsKnown : Finset String := ∅
  spellsPrepared : Finset String := ∅
  preparedSpells : Finset String := ∅
  equipment : List String := []
  currency : Currency := {}
  notes : String := ""
  biography : String := ""
  randomizationLocks : Finset String := ∅

/-- The initial draft (`CharacterState()`). -/
def initialDraft : Draft := {}

/-- `CharacterState.total_bonus_for`. -/
def Draft.totalBonusFor (d : Draft) (ability : String) : Int :=
  (lookupL d.racialAbilityBonuses ability).getD 0
    + (lookupL d.subraceAbilityBonuses ability).getD 0
    + (lookupL d.manualAbilityBonuses ability).getD 0

/-- `CharacterState.total_ability_score`. -/
def Draft.totalAbilityScore (d : Draft) (ability : String) : Int :=
  (lookupL d.baseAbilityScores ability).getD 10 + d.totalBonusFor ability

/-- `CharacterState.ability_modifier` (`//` is Python floor division; on a
positive divisor Lean's `Int` division agrees with it). -/
def Draft.abilityModifier (d : Draft) (ability : String) : Int :=
  (d.totalAbilityScore ability - 10) / 2

/-- `CharacterState.set_base_ability_score`: raises `ValueError` for an
unknown ability (before mutating anything), otherwise clamps the value into
`[1, 30]`.  The returned draft is the post-call state; the second component
is the raised error, if any. -/
def Draft.setBaseAbilityScore (d : Draft) (ability : String) (value : Int) :
    Draft × Option String :=
  if ability ∈ ABILITY_SCORES then
    ({ d with baseAbilityScores :=
        dictSet d.baseAbilityScores ability (max 1 (min 30 value)) }, none)
  else
    (d, some ("Unknown ability: " ++ ability))

/-- `CharacterState.set_manual_bonus`: raises `ValueError` for an unknown
ability, otherwise stores the (unclamped) integer bonus. -/
def Draft.setManualBonus (d : Draft) (ability : String) (value : Int) :
    Draft × Option String :=
  if ability ∈ ABILITY_SCORES then
    ({ d with manualAbilityBonuses := dictSet d.manualAbilityBonuses ability value },
     none)
  else
    (d, some ("Unknown ability: " ++ ability))

/-- `CharacterState.reset`: restores defaults but keeps `name` (the source
does not reset the name field). -/
def Draft.reset (d : Draft) : Draft :=
  { initialDraft with name := d.name }

/-- `rules.proficiency_bonus`. -/
def proficiencyBonus (level : Int) : Int :=
  2 + (max 1 (min level 20) - 1) / 4

/-- `rules.ability_modifier`. -/
def abilityModifierOfScore (score : Int) : Int := (score - 10) / 2

/-- `rules.average_hit_die`. -/
def averageHitDie (hitDie : Int) : Int := hitDie / 2 + 1

/-- `rules.compute_hit_points`. -/
def computeHitPoints (d : Draft) (classData : Option ClassD) : Int :=
  match d.manualHitPoints with
  | some hp => max hp d.level
  | none =>
    match classData with
    | none => max d.level 1
    | some c =>
      let conMod := d.abilityModifier "con"
      let hitDie : Int := if c.hitDie = 0 then 8 else c.hitDie
      let total := hitDie + conMod
      let total :=
        if 1 < d.level then
          total + max 1 (averageHitDie hitDie + conMod) * (d.level - 1)
        else total
      max total d.level

/-- `CharacterViewModel`'s mutable surface: the draft it owns and the current
choice-group map (insertion-ordered).  Signal emission is modelled
separately (see `SigOp`). -/
structure VM where
  draft : Draft := {}
  choiceGroups : List ChoiceGroup := []

/-- `CharacterViewModel._lock_field`. -/
def lockField (d : Draft) (f : String) (locked : Bool) : Draft :=
  if locked then { d with randomizationLocks := insert f d.randomizationLocks }
  else { d with randomizationLocks := d.randomizationLocks.erase f }

/-- `CharacterViewModel._is_locked`. -/
def isLocked (d : Draft) (f : String) : Bool := f ∈ d.randomizationLocks

/-- `CharacterViewModel.toggle_spell`'s `kind` argument (the engine only ever
passes `"known"` or `"prepared"`). -/
inductive SpellKind where
  | known : SpellKind
  | prepared : SpellKind
deriving DecidableEq

/-- `CharacterViewModel.toggle_spell`: enabling a `prepared` spell also adds
it to `known`; disabling a `known` spell also discards it from `prepared`. -/
def toggleSpell (d : Draft) (spellIndex : String) (kind : SpellKind)
    (enabled : Bool) : Draft :=
  let i := pyLower spellIndex
  match kind, enabled with
  | .known, true => { d with spellsKnown := insert i d.spellsKnown }
  | .prepared, true =>
    { d with spellsPrepared := insert i d.spellsPrepared,
             spellsKnown := insert i d.spellsKnown }
  | .known, false =>
    { d with spellsKnown := d.spellsKnown.erase i,
             spellsPrepared := d.spellsPrepared.erase i }
  | .prepared, false => { d with spellsPrepared := d.spellsPrepared.erase i }

/-- One `toggle_spell` call description, for reasoning about call sequences. -/
structure ToggleCall where
  spellIndex : String
  kind : SpellKind
  enabled : Bool

/-- A sequence of `toggle_spell` calls applied in order. -/
def applyToggles (d : Draft) (calls : List ToggleCall) : Draft :=
  calls.foldl (fun st c => toggleSpell st c.spellIndex c.kind c.enabled) d

/-- The option-id set of a choice group. -/
def ChoiceGroup.optionIds (g : ChoiceGroup) : List String :=
  g.options.map (fun o => o.id)

/-- The selection actually stored by `set_choice_selection` (lines 378-382):
ids not among the group's options are filtered out; if more remain than
`choose` allows, the lexicographically smallest `choose` of them are kept. -/
def choiceSelectionStored (g : ChoiceGroup) (selectedIds : List String) :
    Finset String :=
  let selectedList : List String :=
    (selectedIds.filter (fun sid => g.options.any (fun o => o.id = sid))).dedup
  let selected : Finset String := selectedList.toFinset
  if g.choose < (selected.card : Int) then
    (pySliceTo (selectedList.insertionSort (fun a b => a.data ≤ b.data))
      g.choose).toFinset
  else selected

/-- `state._recalculate_racial_bonuses`. -/
def recalcRacialBonuses (ds : Dataset) (d : Draft) : Draft :=
  let zero := ABILITY_SCORES.map (fun a => (a, (0 : Int)))
  let race := if truthyOpt d.race then lookupL ds.races (d.race.getD "") else none
  let racial :=
    match race with
    | some r =>
      r.abilityBonuses.foldl
        (fun m b =>
          let a := pyLower b.1
          if a = "" then m else abAdd m a b.2)
        zero
    | none => zero
  let subraceBonuses :=
    match race with
    | some r =>
      if truthyOpt d.subrace then
        match lookupL r.subraces (d.subrace.getD "") with
        | some sub =>
          sub.abilityBonuses.foldl
            (fun m b =>
              let a := pyLower b.1
              if a = "" then m else abAdd m a b.2)
            zero
        | none => zero
      else zero
    | none => zero
  { d with racialAbilityBonuses := racial, subraceAbilityBonuses := subraceBonuses }

/-- The race-sourced choice groups of `_rebuild_choice_groups`. -/
def groupsFromRace (r : RaceD) : List ChoiceGroup :=
  (match r.languageOptions with
   | some b =>
     (choiceGroupFromOptionBlock ("race:" ++ r.index ++ ":languages") "race"
       (r.name ++ " Bonus Languages") b (some "language")).toList
   | none => []) ++
  (match r.startingProficiencyOptions with
   | some b =>
     (choiceGroupFromOptionBlock ("race:" ++ r.index ++ ":proficiencies") "race"
       (r.name ++ " Bonus Proficiencies") b none).toList
   | none => [])

/-- The class-sourced choice groups of `_rebuild_choice_groups` (one group
per entry of `proficiency_choices`, keyed by its position). -/
def groupsFromClass (c : ClassD) : List ChoiceGroup :=
  c.proficiencyChoices.enum.filterMap (fun p =>
    let nm : String :=
      match p.2.desc with
      | some dsc => if dsc = "" then c.name ++ " Choice " ++ Nat.repr (p.1 + 1) else dsc
      | none => c.name ++ " Choice " ++ Nat.repr (p.1 + 1)
    choiceGroupFromOptionBlock ("class:" ++ c.index ++ ":prof-" ++ Nat.repr p.1)
      "class" nm p.2 none)

/-- The group map `_rebuild_choice_groups` builds for the draft's current
race / subrace / class / background (insertion order preserved). -/
def buildChoiceGroups (ds : Dataset) (d : Draft) : List ChoiceGroup :=
  let race := if truthyOpt d.race then lookupL ds.races (d.race.getD "") else none
  let raceGroups :=
    match race with
    | some r => groupsFromRace r
    | none => []
  let subraceGroups :=
    match race with
    | some r =>
      if truthyOpt d.subrace then
        match lookupL r.subraces (d.subrace.getD "") with
        | some sub =>
          match sub.languageOptions with
          | some b =>
            (choiceGroupFromOptionBlock ("subrace:" ++ sub.index ++ ":languages")
              "subrace" (sub.name ++ " Languages") b (some "language")).toList
          | none => []
        | none => []
      else []
    | none => []
  let classGroups :=
    match (if truthyOpt d.characterClass then
             lookupL ds.classes (d.characterClass.getD "")
           else none) with
    | some c => groupsFromClass c
    | none => []
  let bgGroups :=
    match (if truthyOpt d.background then
             lookupL ds.backgrounds (d.background.getD "")
           else none) with
    | some bg =>
      match bg.languageOptions with
      | some b =>
        (choiceGroupFromOptionBlock ("background:" ++ bg.index ++ ":languages")
          "background" (bg.name ++ " Languages") b (some "language")).toList
      | none => []
    | none => []
  raceGroups ++ subraceGroups ++ classGroups ++ bgGroups

/-- The stale-selection filter of `_rebuild_choice_groups` (lines 722-731):
selections for groups no longer present are discarded; the others are
intersected with the group's new legal option set. -/
def filterSelections (groups : List ChoiceGroup)
    (sels : List (String × Finset String)) : List (String × Finset String) :=
  sels.filterMap (fun p =>
    match groups.find? (fun g => g.id = p.1) with
    | none => none
    | some g => some (p.1, p.2.filter (fun oid => oid ∈ g.optionIds)))

/-- `state._rebuild_choice_groups`: build the new groups, filter the stored
selections against them, and install both. -/
def rebuildChoiceGroups (ds : Dataset) (vm : VM) : VM :=
  let groups := buildChoiceGroups ds vm.draft
  { draft := { vm.draft with
      choiceSelections := filterSelections groups vm.draft.choiceSelections },
    choiceGroups := groups }

/-- `state._refresh_everything` (racial-bonus recalc, group rebuild; the
derived-stat recomputation is the pure `rules` layer modelled above). -/
def refreshEverything (ds : Dataset) (vm : VM) : VM :=
  rebuildChoiceGroups ds { vm with draft := recalcRacialBonuses ds vm.draft }

/-- `CharacterViewModel.set_name` (emits a state change only; no refresh). -/
def setName (vm : VM) (name : String) : VM :=
  let stripped := pyStrip name
  let newName := if stripped = "" then "New Adventurer" else stripped
  let d := { vm.draft with name := newName }
  let d := lockField d "name" (if stripped = "" then false else true)
  { vm with draft := d }

/-- `CharacterViewModel.set_level`: clamps into `[1, 20]`, no-ops when the
clamped level equals the current one, otherwise stores it, locks the field
and refreshes. -/
def setLevel (ds : Dataset) (vm : VM) (level : Int) : VM :=
  let clamped := max 1 (min 20 level)
  if clamped = vm.draft.level then vm
  else
    refreshEverything ds
      { vm with draft := lockField { vm.draft with level := clamped } "level" true }

/-- `CharacterViewModel.set_choice_selection`. -/
def setChoiceSelection (ds : Dataset) (vm : VM) (groupId : String)
    (selectedIds : List String) : VM :=
  match vm.choiceGroups.find? (fun g => g.id = groupId) with
  | none => vm
  | some g =>
    let selected := choiceSelectionStored g selectedIds
    let d := { vm.draft with
      choiceSelections := dictSet vm.draft.choiceSelections groupId selected }
    let d :=
      if selected ≠ ∅ then lockField d "choices" true
      else if d.choiceSelections.all (fun p => p.2 = ∅) then
        lockField d "choices" false
      else d
    refreshEverything ds { vm with draft := d }

/-- The random decisions consumed by one `randomize_character` run: every
`random.choice` / `random.choices` draw is an index, every `random.sample`
draw a rotation.  Weighted draws (`_pick_weighted_race`,
`_pick_weighted_subrace`, the level table) use strictly positive weights in
the source, so an oracle index ranges over the same support. -/
structure Oracle where
  classPick : Nat := 0
  classPick2 : Nat := 0
  levelPick : Nat := 0
  racePick : Nat := 0
  racePick2 : Nat := 0
  subracePick : Nat := 0
  subclassPick : Nat := 0
  backgroundPick : Nat := 0
  alignmentPick : Nat := 0
  genderPick : Nat := 0
  nameGenderPick : Nat := 0
  givenPick : Nat := 0
  surnamePick : Nat := 0
  cantripRot : Nat := 0
  knownRot : Nat := 0
  preparedRot : Nat := 0
  choiceRot : Nat → Nat := fun _ => 0

/-- `state._apply_standard_array`. -/
def applyStandardArray (cd : Option ClassD) (d : Draft) : Draft :=
  let key : String :=
    match cd with
    | some c => c.index
    | none => ""
  let priorities := (lookupL classAbilityPriorities key).getD ABILITY_SCORES
  let ordered :=
    (priorities ++ ABILITY_SCORES).foldl
      (fun l a => if a ∈ l then l else l ++ [a]) []
  let assignments := List.zip ordered STANDARD_ARRAY
  let fallback := STANDARD_ARRAY.getLastD 0
  { d with baseAbilityScores :=
      ABILITY_SCORES.map (fun a => (a, (lookupL assignments a).getD fallback)) }

/-- `state._auto_populate_choice_selections` (`overwrite` mirrors the
argument; per-group sampling randomness comes from `choiceRot` keyed by the
group's position). -/
def autoPopulateChoiceSelections (o : Oracle) (overwrite : Bool) (vm : VM) : VM :=
  if vm.choiceGroups = [] then vm
  else
    let newSels :=
      vm.choiceGroups.enum.foldl
        (fun sels p =>
          let g := p.2
          let options := g.optionIds
          if options = [] ∨ g.choose ≤ 0 then sels
          else
            let existing := (lookupL sels g.id).getD ∅
            let available := options.filter (fun oid => oid ∉ existing)
            if overwrite then
              let pickCount := min g.choose (options.length : Int)
              if pickCount ≤ 0 then sels
              else
                dictSet sels g.id
                  (sampleList (o.choiceRot p.1) options pickCount.toNat).toFinset
            else
              let needed := g.choose - (existing.card : Int)
              if needed ≤ 0 then sels
              else
                let pickCount := min needed (available.length : Int)
                if pickCount ≤ 0 then sels
                else
                  dictSet sels g.id
                    (existing ∪
                      (sampleList (o.choiceRot p.1) available pickCount.toNat).toFinset))
        vm.draft.choiceSelections
    { vm with draft := { vm.draft with choiceSelections := newSels } }

/-- The spell list `spells_by_level` builds before grouping: the class's
spells plus, when a subclass is set, the subclass's spells. -/
def spellsListFor (ds : Dataset) (d : Draft) : List Spell :=
  match d.characterClass with
  | none => []
  | some ci =>
    if ci = "" then []
    else
      ds.spells.filter (fun s => ci ∈ s.classIndexes) ++
      (match d.subclass with
       | some sub =>
         if sub = "" then []
         else ds.spells.filter (fun s => sub ∈ s.subclassIndexes)
       | none => [])

/-- `spells_by_level().get(lvl, [])`.  The source additionally sorts each
bucket by display name, which only permutes the pool handed to the
oracle-indexed sampler. -/
def spellsAtLevel (ds : Dataset) (d : Draft) (lvl : Nat) : List Spell :=
  (spellsListFor ds d).filter (fun s => s.level = lvl)

/-- `list({spell["index"]: spell for spell in leveled_spells}.values())`:
one spell per index, first-occurrence order, last-occurrence value. -/
def dedupByIndex (l : List Spell) : List Spell :=
  (l.foldl (fun acc s => dictSet acc s.index s) []).map (fun p => p.2)

/-- `state._auto_assign_spells`.  The two early returns clear only the
known/prepared buckets (`selected_spells.clear()`), leaving
`prepared_spells` as it was, exactly as in the source. -/
def autoAssignSpells (ds : Dataset) (cd : Option ClassD) (o : Oracle)
    (d : Draft) : Draft :=
  match cd with
  | none => { d with spellsKnown := ∅, spellsPrepared := ∅ }
  | some c =>
    let levelInfo := if c.levels = [] then none else lookupI c.levels d.level
    match levelInfo.bind (fun li => li.spellcasting) with
    | none => { d with spellsKnown := ∅, spellsPrepared := ∅ }
    | some sc =>
      let known1 : Finset String :=
        if sc.cantripsKnown ≠ 0 then
          let cantrips := spellsAtLevel ds d 0
          if cantrips ≠ [] then
            ((sampleList o.cantripRot cantrips
                (min sc.cantripsKnown cantrips.length)).map
              (fun s => pyLower s.index)).toFinset
          else ∅
        else ∅
      let leveled0 :=
        (List.range' 1 9).flatMap (fun lvl =>
          if 0 < (lookupN sc.slots lvl).getD 0 then spellsAtLevel ds d lvl else [])
      let leveled := if leveled0 ≠ [] then dedupByIndex leveled0 else leveled0
      let known2 : Finset String :=
        match sc.spellsKnown with
        | some n =>
          if n ≠ 0 ∧ leveled ≠ [] then
            known1 ∪
              ((sampleList o.knownRot leveled (min n leveled.length)).map
                (fun s => pyLower s.index)).toFinset
          else known1
        | none => known1
      let prepared : Finset String :=
        if c.index ∈ preparedCasterClasses ∧ leveled ≠ [] then
          let abilityMod : Int :=
            match c.spellcastingAbility with
            | some a => d.abilityModifier a
            | none => 0
          let preparedCount := max 1 (abilityMod + d.level)
          ((sampleList o.preparedRot leveled
              (min preparedCount (leveled.length : Int)).toNat).map
            (fun s => pyLower s.index)).toFinset
        else ∅
      { d with spellsKnown := known2 ∪ prepared, spellsPrepared := prepared,
               preparedSpells := prepared }

/-- `state.CLASS_STARTER_LOADOUTS` entries / `state.DEFAULT_LOADOUT`. -/
structure Loadout where
  armor : List String := []
  weapons : List String := []
  gear : List String := []
  gp : Int := 40
  gpPerLevel : Int := 20
  pp : Int := 0
  ep : Int := 0
  sp : Int := 0
  cp : Int := 0

/-- `state.DEFAULT_LOADOUT`. -/
def defaultLoadout : Loadout :=
  { armor := ["leather-armor"], weapons := ["quarterstaff"],
    gear := ["explorers-pack"], gp := 40, gpPerLevel := 20 }

/-- `state.CLASS_STARTER_LOADOUTS`. -/
def classStarterLoadouts : List (String × Loadout) :=
  [("barbarian",
    { armor := ["scale-mail"], weapons := ["greataxe", "handaxe", "handaxe"],
      gear := ["explorers-pack"], gp := 50, gpPerLevel := 25 }),
   ("bard",
    { armor := ["leather-armor"], weapons := ["rapier", "dagger"],
      gear := ["entertainers-pack", "lute"], gp := 45, gpPerLevel := 20 }),
   ("cleric",
    { armor := ["scale-mail", "shield"], weapons := ["mace"],
      gear := ["priests-pack", "holy-water-flask"], gp := 55, gpPerLevel := 25 }),
   ("druid",
    { armor := ["leather-armor", "shield"], weapons := ["scimitar", "quarterstaff"],
      gear := ["explorers-pack"], gp := 40, gpPerLevel := 20 }),
   ("fighter",
    { armor := ["chain-mail", "shield"],
      weapons := ["longsword", "longsword", "longbow", "arrow"],
      gear := ["dungeoneers-pack"], gp := 75, gpPerLevel := 30 }),
   ("monk",
    { armor := [], weapons := ["shortsword", "dart", "dart", "dart", "dart"],
      gear := ["explorers-pack"], gp := 20, gpPerLevel := 15 }),
   ("paladin",
    { armor := ["chain-mail", "shield"], weapons := ["longsword", "warhammer"],
      gear := ["priests-pack", "holy-water-flask"], gp := 70, gpPerLevel := 30 }),
   ("ranger",
    { armor := ["scale-mail"],
      weapons := ["longbow", "arrow", "shortsword", "shortsword"],
      gear := ["explorers-pack"], gp := 60, gpPerLevel := 25 }),
   ("rogue",
    { armor := ["leather-armor"], weapons := ["rapier", "shortbow", "arrow"],
      gear := ["burglars-pack"], gp := 45, gpPerLevel := 20 }),
   ("sorcerer",
    { armor := [],
      weapons := ["dagger", "dagger", "crossbow-light", "crossbow-bolt", "crossbow-bolt"],
      gear := ["explorers-pack", "crystal"], gp := 60, gpPerLevel := 25 }),
   ("warlock",
    { armor := ["leather-armor"],
      weapons := ["crossbow-light", "crossbow-bolt", "crossbow-bolt", "dagger", "dagger"],
      gear := ["scholars-pack"], gp := 65, gpPerLevel := 25 }),
   ("wizard",
    { armor := [], weapons := ["quarterstaff", "dagger"],
      gear := ["scholars-pack", "spellbook", "crystal"], gp := 50, gpPerLevel := 20 })]

/-- `state._loadout_for_class`. -/
def loadoutForClass (classIndex : Option String) : Loadout :=
  match classIndex with
  | some c =>
    if c = "" then defaultLoadout
    else
      match lookupL classStarterLoadouts c with
      | some l => l
      | none => defaultLoadout
  | none => defaultLoadout

/-- The first-weapon magic-bonus rewrite of `_generate_equipment_and_currency`
(`id` becomes `id+N` for the first item whose equipment category is
`weapon`). -/
def attachMagicBonus (ds : Dataset) (bonus : Nat) : List String → List String
  | [] => []
  | x :: xs =>
    match lookupL ds.equipment x with
    | some cat =>
      if pyLower cat = "weapon" then (x ++ "+" ++ Nat.repr bonus) :: xs
      else x :: attachMagicBonus ds bonus xs
    | none => x :: attachMagicBonus ds bonus xs

/-- `state._generate_equipment_and_currency`. -/
def generateEquipmentAndCurrency (ds : Dataset) (cd : Option ClassD)
    (stateLevel : Int) : List String × Currency :=
  let loadout := loadoutForClass (cd.map (fun c => c.index))
  let equipment := loadout.armor ++ loadout.weapons ++ loadout.gear
  let magicBonus : Nat :=
    if 16 ≤ stateLevel then 3
    else if 11 ≤ stateLevel then 2
    else if 5 ≤ stateLevel then 1
    else 0
  let equipment :=
    if 0 < magicBonus then attachMagicBonus ds magicBonus equipment else equipment
  let level := max 1 stateLevel
  let totalGp := loadout.gp + max 0 (level - 1) * loadout.gpPerLevel
  (equipment,
   { pp := ensurePositiveInt loadout.pp, gp := ensurePositiveInt totalGp,
     ep := ensurePositiveInt loadout.ep, sp := ensurePositiveInt loadout.sp,
     cp := ensurePositiveInt loadout.cp })

/-- `state.RACE_NAME_TABLES`. -/
def raceNameTables : List (String × List (String × List String)) :=
  [("human",
    [("male", ["Alden", "Derrik", "Marcus", "Tristan", "Roland"]),
     ("female", ["Elena", "Lysa", "Marian", "Seren", "Talia"]),
     ("surname", ["Blackwood", "Cavalier", "Harrow", "Rivers", "Thorne"])]),
   ("elf",
    [("male", ["Aelar", "Theren", "Varis", "Erevan", "Syllion"]),
     ("female", ["Aeris", "Lia", "Naivara", "Sylwen", "Thia"]),
     ("surname", ["Evenwood", "Moonwhisper", "Nightbreeze", "Silvertree", "Windrunner"])]),
   ("dwarf",
    [("male", ["Baern", "Bruen", "Dorn", "Harbek", "Rurik"]),
     ("female", ["Amber", "Eldeth", "Finellen", "Mardred", "Torbera"]),
     ("surname", ["Battlehammer", "Fireforge", "Ironfist", "Rockseeker", "Stonehelm"])]),
   ("halfling",
    [("male", ["Alton", "Cade", "Eldon", "Milo", "Wellby"]),
     ("female", ["Bree", "Callie", "Lavinia", "Myria", "Seraphina"]),
     ("surname", ["Brushgather", "Goodbarrel", "Greenbottle", "Highhill", "Tealeaf"])]),
   ("dragonborn",
    [("male", ["Aryx", "Balasar", "Khagrax", "Rhogar", "Torinn"]),
     ("female", ["Akra", "Kaida", "Mizra", "Sora", "Thyana"]),
     ("surname", ["Clethtinthiallor", "Daardendrian", "Delmirev", "Kepeshkmolik", "Turnuroth"])]),
   ("gnome",
    [("male", ["Alston", "Boddynock", "Dimble", "Finnan", "Orin"]),
     ("female", ["Bimpnottin", "Ella", "Lilli", "Nissa", "Zanna"]),
     ("surname", ["Beren", "Daergel", "Folkor", "Murnig", "Nackle"])]),
   ("half-elf",
    [("male", ["Aeric", "Corin", "Laethan", "Syllas", "Theron"]),
     ("female", ["Ara", "Elora", "Maia", "Rinn", "Sylia"]),
     ("surname", ["Amastacia", "Galanodel", "Ilphelkiir", "Siannodel", "Holimion"])]),
   ("half-orc",
    [("male", ["Dorn", "Grysh", "Krusk", "Mogar", "Thokk"]),
     ("female", ["Arha", "Baggi", "Emen", "Sutha", "Yevelda"]),
     ("surname", ["Bonecrusher", "Ironhide", "Skullcleaver", "Stormcaller", "Thrash"])]),
   ("tiefling",
    [("male", ["Akmenos", "Damien", "Leucis", "Morthos", "Zephiros"]),
     ("female", ["Akmena", "Beleth", "Kasdeya", "Orianna", "Zephra"]),
     ("surname", ["Fateborn", "Hellfire", "Nightbloom", "Runeweaver", "Shadowstep"])])]

/-- `state.DEFAULT_NAME_TABLE`. -/
def defaultNameTable : List (String × List String) :=
  [("male", ["Rowan", "Galen", "Tobin", "Lucan", "Merrick"]),
   ("female", ["Ayla", "Celia", "Daphne", "Lyra", "Mira"]),
   ("surname", ["Ashford", "Brightwood", "Fairwind", "Starling", "Waverly"])]

/-- `state._generate_character_name`. -/
def generateCharacterName (o : Oracle) (race : Option RaceD)
    (gender : Option String) : String :=
  let g0 : String :=
    match gender with
    | some s =>
      if s = "" then ["male", "female"].getD (o.nameGenderPick % 2) "male" else s
    | none => ["male", "female"].getD (o.nameGenderPick % 2) "male"
  let g := pyLower g0
  let raceKey0 : String :=
    match race with
    | some r => r.index
    | none => "human"
  let raceKey : String :=
    if (lookupL raceNameTables raceKey0).isSome then raceKey0
    else
      match race with
      | none => raceKey0
      | some r =>
        let parts := r.index.splitOn "-"
        if (lookupL raceNameTables r.index).isSome then r.index
        else if (lookupL raceNameTables (parts.headD "")).isSome then parts.headD ""
        else if (lookupL raceNameTables (parts.getLastD "")).isSome then parts.getLastD ""
        else raceKey0
  let table := (lookupL raceNameTables raceKey).getD defaultNameTable
  let givenOptions :=
    (lookupL table g).getD
      ((lookupL defaultNameTable g).getD ((lookupL defaultNameTable "male").getD []))
  let surnameOptions :=
    (lookupL table "surname").getD ((lookupL defaultNameTable "surname").getD [])
  let given :=
    if givenOptions = [] then "Arin"
    else givenOptions.getD (o.givenPick % givenOptions.length) "Arin"
  let surname :=
    if surnameOptions = [] then "Brightwood"
    else surnameOptions.getD (o.surnamePick % surnameOptions.length) "Brightwood"
  given ++ " " ++ surname

/-- `randomize_character`, `# Determine class` (lines 430-440), including the
`if not class_data` fallback re-roll.  `random.choice` in the unlocked
branch also clears the `class` lock. -/
def stageClass (ds : Dataset) (o : Oracle) (d : Draft) :
    Except String (Draft × ClassD) := do
  if isLocked d "class" && truthyOpt d.characterClass then
    match lookupL ds.classes (d.characterClass.getD "") with
    | some cd => return (d, cd)
    | none =>
      let cd ← pyChoice o.classPick2 (ds.classes.map (fun p => p.2))
      return ({ d with characterClass := some cd.index }, cd)
  else
    let cd ← pyChoice o.classPick (ds.classes.map (fun p => p.2))
    return (lockField { d with characterClass := some cd.index } "class" false, cd)

/-- `randomize_character`, `# Determine level`: re-rolled (uniformly over the
support of the strictly positive `LEVEL_WEIGHTS` table, i.e. 1..20) unless
the level is locked and positive. -/
def stageLevel (o : Oracle) (d : Draft) : Draft :=
  if !(isLocked d "level") || d.level ≤ 0 then
    { d with level := 1 + Int.ofNat (o.levelPick % 20) }
  else d

/-- One summand of `_score_race_for_class` / `_score_subrace_for_class`,
scaled by 4 to stay in `Int`: the multipliers 2 / 1.5 / 0.75 become
8 / 6 / 3 (a positive rescale, so the sign and zeroness of every score and
of any weight total are preserved exactly). -/
def bonusWeight4 (primary : String) (secondary : Option String)
    (b : String × Int) : Int :=
  b.2 * (if pyLower b.1 = primary then 8
    else if some (pyLower b.1) = secondary then 6 else 3)

/-- `state._score_race_for_class` / `state._score_subrace_for_class` (their
bodies are identical over the bonus list), quadrupled.  `priorities[0]` /
`priorities[1] if len(priorities) > 1 else None` become `headD` / `[1]?`
(every priority table and `ABILITY_SCORES` is non-empty). -/
def scoreForClass4 (bonuses : List (String × Int)) (cd : ClassD) : Int :=
  let priorities := (lookupL classAbilityPriorities cd.index).getD ABILITY_SCORES
  bonuses.foldl
    (fun acc b => acc + bonusWeight4 (priorities.headD "") priorities[1]? b) 0

/-- `random.choices(population, weights=w, k=1)[0]`: CPython raises
`ValueError("Total of weights must be greater than zero")` when the weight
total is not positive; otherwise the draw is modelled as an oracle-indexed
element of the population.  On success the pick ranges over the whole
population — a zero- or negative-weight element amid a positive total could
never actually be drawn, but no theorem below depends on which element a
successful draw returns. -/
def pyChoicesWeighted {α : Type} (k : Nat) (pop : List α)
    (weights : List Int) : Except String α :=
  if weights.sum ≤ 0 then
    Except.error "ValueError: Total of weights must be greater than zero"
  else pyChoice k pop

/-- The quadrupled race weights of `_pick_weighted_race` (`score or 1.0`
becomes `if s = 0 then 4 else s`, which keeps a negative score negative). -/
def raceWeights (ds : Dataset) (cd : ClassD) : List Int :=
  ds.races.map (fun p =>
    let s := scoreForClass4 p.2.abilityBonuses cd
    if s = 0 then 4 else s)

/-- `state._pick_weighted_race`. -/
def pickWeightedRace (ds : Dataset) (cd : ClassD) (k : Nat) :
    Except String RaceD :=
  pyChoicesWeighted k (ds.races.map (fun p => p.2)) (raceWeights ds cd)

/-- The quadrupled subrace weights of `_pick_weighted_subrace`. -/
def subraceWeights (race : RaceD) (cd : ClassD) : List Int :=
  race.subraces.map (fun p =>
    let s := scoreForClass4 p.2.abilityBonuses cd
    if s = 0 then 4 else s)

/-- `state._pick_weighted_subrace`, on a race with subraces (the caller
checks `race.subraces` first). -/
def pickWeightedSubrace (race : RaceD) (cd : ClassD) (k : Nat) :
    Except String SubraceD :=
  pyChoicesWeighted k (race.subraces.map (fun p => p.2)) (subraceWeights race cd)

/-- `randomize_character`, `# Determine race` (lines 446-456), including the
`if not race` fallback.  The unlocked branch draws via `_pick_weighted_race`,
which raises `ValueError` when the race weight total is not positive (the
per-race score can be negative for negative ability bonuses); the
locked-miss fallback is a plain `random.choice`. -/
def stageRace (ds : Dataset) (cd : ClassD) (o : Oracle) (d : Draft) :
    Except String (Draft × RaceD) := do
  let (d1, race0) ←
    if isLocked d "race" && truthyOpt d.race then
      pure (d, lookupL ds.races (d.race.getD ""))
    else do
      let r ← pickWeightedRace ds cd o.racePick
      pure (lockField { d with race := some r.index } "race" false, some r)
  match race0 with
  | some r => return (d1, r)
  | none =>
    let r ← pyChoice o.racePick2 (ds.races.map (fun p => p.2))
    return ({ d1 with race := some r.index }, r)

/-- `randomize_character`, `# Determine subrace` (lines 458-468): a locked
subrace is kept only when it is one of the race's subraces; the re-roll
draws via `_pick_weighted_subrace`, which raises `ValueError` when the
subrace weight total is not positive; a race without subraces forces the
field to `None`. -/
def stageSubrace (o : Oracle) (race : RaceD) (cd : ClassD) (d : Draft) :
    Except String Draft := do
  if !race.subraces.isEmpty then
    if isLocked d "subrace" &&
        (match d.subrace with
         | some s => (lookupL race.subraces s).isSome
         | none => false) then
      return d
    else
      let sub ← pickWeightedSubrace race cd o.subracePick
      return lockField { d with subrace := some sub.index } "subrace" false
  else
    return { d with subrace := none }

/-- `randomize_character`, `# Determine subclass if applicable`
(lines 470-486): eligibility requires the subclass's earliest feature level
(3 when it grants none) to be at most the current level. -/
def stageSubclass (o : Oracle) (cd : ClassD) (d : Draft) :
    Except String Draft := do
  if !cd.subclasses.isEmpty then
    if isLocked d "subclass" &&
        (match d.subclass with
         | some s => (lookupL cd.subclasses s).isSome
         | none => false) then
      return d
    else
      let eligible :=
        (cd.subclasses.map (fun p => p.2)).filter (fun sc =>
          let minLevel : Int :=
            match sc.featureLevels.min? with
            | some m => m
            | none => 3
          minLevel ≤ d.level)
      if eligible.isEmpty then
        return lockField { d with subclass := none } "subclass" false
      else
        let sc ← pyChoice o.subclassPick eligible
        return lockField { d with subclass := some sc.index } "subclass" false
  else
    return { d with subclass := none }

/-- `randomize_character`, background part of lines 488-495: a locked, set
background only triggers a lookup (the draft keeps its value even when the
lookup misses); otherwise a uniform pick, or `None` when no backgrounds are
loaded (in which case the lock is not cleared). -/
def stageBackground (ds : Dataset) (o : Oracle) (d : Draft) :
    Except String Draft := do
  if isLocked d "background" && truthyOpt d.background then
    return d
  else
    if ds.backgrounds.isEmpty then
      return { d with background := none }
    else
      let bg ← pyChoice o.backgroundPick (ds.backgrounds.map (fun p => p.2))
      return lockField { d with background := some bg.index } "background" false

/-- `randomize_character`, alignment part of lines 497-502: the locked branch
only searches the alignment table (`next(...)`) without touching the draft. -/
def stageAlignment (ds : Dataset) (o : Oracle) (d : Draft) :
    Except String Draft := do
  if isLocked d "alignment" && truthyOpt d.alignment then
    return d
  else
    if ds.alignments.isEmpty then
      return lockField { d with alignment := none } "alignment" false
    else
      let al ← pyChoice o.alignmentPick ds.alignments
      return lockField { d with alignment := some al } "alignment" false

/-- `randomize_character`, gender part of lines 504-509; the second component
is the local `gender` variable later fed to the name generator. -/
def stageGender (o : Oracle) (d : Draft) : Except String (Draft × String) := do
  if isLocked d "gender" && truthyOpt d.gender then
    return (d, d.gender.getD "")
  else
    let g ← pyChoice o.genderPick ["male", "female"]
    return (lockField { d with gender := some g } "gender" false, g)

/-- `randomize_character`, name part of lines 511-514. -/
def stageName (o : Oracle) (race : RaceD) (gender : String) (d : Draft) : Draft :=
  if !(isLocked d "name") then
    lockField
      { d with name := generateCharacterName o (some race) (some gender) }
      "name" false
  else d

/-- `randomize_character`, the unlocked-field resets of lines 516-530. -/
def stageResets (d : Draft) : Draft :=
  let d :=
    if !(isLocked d "skills") then
      { d with selectedSkillProficiencies := ∅, selectedSkillExpertise := ∅ }
    else d
  let d :=
    if !(isLocked d "spells") then
      { d with spellsKnown := ∅, spellsPrepared := ∅, preparedSpells := ∅ }
    else d
  let d :=
    if !(isLocked d "abilities") then
      { d with manualHitPoints := none,
               baseAbilityScores := ABILITY_SCORES.map (fun a => (a, 10)),
               manualAbilityBonuses := ABILITY_SCORES.map (fun a => (a, 0)) }
    else d
  if !(isLocked d "notes") then { d with notes := "" } else d

/-- `randomize_character`, equipment/currency part of lines 532-540: the
loadout is always generated; each assignment is guarded by its lock and, when
applied, clears that lock. -/
def stageEquipment (ds : Dataset) (cd : ClassD) (d : Draft) : Draft :=
  let gen := generateEquipmentAndCurrency ds (some cd) d.level
  let d :=
    if !(isLocked d "equipment") then
      lockField { d with equipment := gen.1 } "equipment" false
    else d
  if !(isLocked d "currency") then
    lockField { d with currency := gen.2 } "currency" false
  else d

/-- `randomize_character`, the `_suspend_signals` block of lines 542-553:
class data is re-fetched from the draft, the standard array applied when
abilities are unlocked, racial bonuses recalculated, choice groups rebuilt,
selections auto-populated (overwriting unless choices are locked) and spells
auto-assigned when unlocked.  (`_refresh_derived` recomputes the derived
cache, modelled by the pure `rules` functions.) -/
def stageFinal (ds : Dataset) (o : Oracle) (d : Draft) : VM :=
  let classData2 :=
    if truthyOpt d.characterClass then lookupL ds.classes (d.characterClass.getD "")
    else none
  let d := if !(isLocked d "abilities") then applyStandardArray classData2 d else d
  let d := recalcRacialBonuses ds d
  let vm := rebuildChoiceGroups ds { draft := d, choiceGroups := [] }
  let vm := autoPopulateChoiceSelections o (!(isLocked vm.draft "choices")) vm
  if !(isLocked vm.draft "spells") then
    { vm with draft := autoAssignSpells ds classData2 o vm.draft }
  else vm

/-- `CharacterViewModel.randomize_character`: the early return when no
classes are loaded, then the staged pipeline in source order.  Errors are
exactly the `IndexError`s Python could raise from `random.choice` on an
empty sequence. -/
def randomizeCharacter (ds : Dataset) (o : Oracle) (vm : VM) :
    Except String VM := do
  if ds.classes.isEmpty then
    return vm
  let (d, cd) ← stageClass ds o vm.draft
  let d := stageLevel o d
  let (d, race) ← stageRace ds cd o d
  let d ← stageSubrace o race cd d
  let d ← stageSubclass o cd d
  let d ← stageBackground ds o d
  let d ← stageAlignment ds o d
  let (d, gender) ← stageGender o d
  let d := stageName o race gender d
  let d := stageResets d
  let d := stageEquipment ds cd d
  return stageFinal ds o d

/-- The three notification channels of the view-model. -/
inductive Channel where
  | state : Channel
  | derived : Channel
  | choices : Channel
deriving DecidableEq

/-- Signal-relevant operations: a guarded emission (one of
`_emit_state_changed` / the guarded emits in `_refresh_derived` and
`_rebuild_choice_groups`, delivered only when `_signal_suppression == 0`),
an unconditional `.emit()` call, and a `with self._suspend_signals():` block
(increment on entry, `max(0, n - 1)` on exit — exactly bracketed). -/
inductive SigOp where
  | emit : Channel → SigOp
  | fire : Channel → SigOp
  | suspended : List SigOp → SigOp

mutual

/-- The channels delivered by a list of operations run at suspension depth
`n`. -/
def runSig (n : Nat) : List SigOp → List Channel
  | [] => []
  | op :: rest => runSigOp n op ++ runSig n rest

/-- The channels delivered by a single operation at suspension depth `n`. -/
def runSigOp (n : Nat) : SigOp → List Channel
  | .emit c => if n = 0 then [c] else []
  | .fire c => [c]
  | .suspended body => runSig (n + 1) body

end

mutual

/-- Whether every emission in the list is depth-guarded (no raw `.emit()`). -/
def guardedOnly : List SigOp → Bool
  | [] => true
  | op :: rest => guardedOnlyOp op && guardedOnly rest

/-- Whether every emission in the operation is depth-guarded. -/
def guardedOnlyOp : SigOp → Bool
  | .emit _ => true
  | .fire _ => false
  | .suspended body => guardedOnly body

end

/-- Signal trace of `_refresh_derived`. -/
def refreshDerivedOps : List SigOp := [.emit .derived]

/-- Signal trace of `_rebuild_choice_groups`. -/
def rebuildOps : List SigOp := [.emit .choices]

/-- Signal trace of `_refresh_everything` (recalculation emits nothing;
rebuild, derived refresh, then the state signal). -/
def refreshEverythingOps : List SigOp := rebuildOps ++ refreshDerivedOps ++ [.emit .state]

/-- Signal trace of the mutators that only emit a state change
(`set_name`, `set_alignment`, `set_gender`, `toggle_spell`). -/
def stateOnlyOps : List SigOp := [.emit .state]

/-- Signal trace of the mutators that only refresh derived stats
(`set_base_ability_score`, `set_manual_ability_bonus`,
`toggle_skill_proficiency`, `toggle_expertise`). -/
def derivedOnlyOps : List SigOp := refreshDerivedOps

/-- Signal trace of `randomize_character` (lines 545-557): the suspended
block runs the rebuild and the derived refresh with delivery off, then the
guarded state emit and two unconditional `.emit()` calls fire once each. -/
def randomizeOps : List SigOp :=
  [.suspended (rebuildOps ++ refreshDerivedOps), .emit .state,
   .fire .choices, .fire .derived]

instance {ε α : Type} [DecidableEq ε] [DecidableEq α] : DecidableEq (Except ε α)
  | .error a, .error b => decidable_of_iff (a = b) (by simp)
  | .error _, .ok _ => isFalse (fun h => Except.noConfusion h)
  | .ok _, .error _ => isFalse (fun h => Except.noConfusion h)
  | .ok a, .ok b => decidable_of_iff (a = b) (by simp)

/-- Default oracle (index 0 everywhere) for concrete runs. -/
def exOracle : Oracle := {}

/-- A concrete choice group with `choose = 1` and two options. -/
def exGroup4 : ChoiceGroup :=
  { id := "g1", source := "race", name := "Sample", choose := 1,
    options :=
      [⟨"language-elvish", "Elvish", "language", some "language-elvish"⟩,
       ⟨"language-dwarvish", "Dwarvish", "language", some "language-dwarvish"⟩] }

/-- A concrete two-option `choose 1` language block. -/
def exLangBlock : OptionBlock :=
  { choose := 1,
    entries := [OptEntry.item (some "language-dwarvish") none,
                OptEntry.item (some "language-elvish") none] }

/-- A race offering the `choose 1 of 2` bonus-language decision. -/
def exRaceHuman : RaceD :=
  { index := "human", name := "Human", languageOptions := some exLangBlock }

/-- A race with no decision points. -/
def exRacePlain : RaceD := { index := "human", name := "Human" }

/-- A class with no subclasses, choices or spellcasting. -/
def exClassFighter : ClassD := { index := "fighter", name := "Fighter", hitDie := 10 }

/-- Dataset with one race carrying a language choice. -/
def exDsLang : Dataset := { races := [("human", exRaceHuman)] }

/-- Dataset with one plain race and one plain class. -/
def exDsPlain : Dataset :=
  { races := [("human", exRacePlain)], classes := [("fighter", exClassFighter)] }

/-- A race whose only ability bonus is negative: its `_score_race_for_class`
weight is negative for a class whose primary ability it debuffs. -/
def exRaceNeg : RaceD :=
  { index := "frail", name := "Frail", abilityBonuses := [("str", -5)] }

/-- Dataset with one class and one race of negative weight: the weighted
race draw's total is negative and `random.choices` raises `ValueError`. -/
def exDsNeg : Dataset :=
  { races := [("frail", exRaceNeg)], classes := [("fighter", exClassFighter)] }

/-- Every field name the randomizer consults in `randomization_locks`. -/
def allLockFields : List String :=
  ["name", "level", "race", "subrace", "class", "subclass", "background",
   "alignment", "gender", "skills", "spells", "abilities", "notes",
   "equipment", "currency", "choices"]

/-- A view-model whose stored selection over-fills its group (2 selected,
`choose = 1`). -/
def exDraft5 : Draft :=
  { race := some "human",
    choiceSelections :=
      [("race:human:languages", {"language-dwarvish", "language-elvish"})] }

/-- A view-model whose stored selection over-fills its group. -/
def exVM5 : VM := { draft := exDraft5 }

/-- A view-model with a legal (within-cardinality) stored selection. -/
def exDraft6 : Draft :=
  { race := some "human",
    choiceSelections := [("race:human:languages", {"language-elvish"})] }

/-- A view-model with a legal stored selection. -/
def exVM6 : VM := { draft := exDraft6 }

/-- A draft with every randomization-lock field locked but the structural
fields still unset. -/
def exVM8bad : VM :=
  { draft := { randomizationLocks := allLockFields.toFinset } }

/-- A fully locked draft whose locked fields are set, resolvable and
compatible with `exDsPlain`. -/
def exDraft8ok : Draft :=
  { name := "Alden", level := 3, race := some "human",
    characterClass := some "fighter", background := some "soldier",
    alignment := some "lawful-good", gender := some "male",
    randomizationLocks := allLockFields.toFinset }

/-- A fully locked view-model over `exDraft8ok`. -/
def exVM8ok : VM := { draft := exDraft8ok }

/-- Well-formedness of a dataset's ability-bonus keys: every racial or
subracial bonus names one of the six abilities (or is empty and skipped).
The source indexes `racial_ability_bonuses[ability] += bonus` directly, so a
key outside the six would raise `KeyError`; the randomizer-totality claim is
settled over datasets satisfying this. -/
def validAbilityKeys (ds : Dataset) : Prop :=
  (∀ p ∈ ds.races, ∀ b ∈ p.2.abilityBonuses,
      pyLower b.1 = "" ∨ pyLower b.1 ∈ ABILITY_SCORES) ∧
  (∀ p ∈ ds.races, ∀ q ∈ p.2.subraces, ∀ b ∈ q.2.abilityBonuses,
      pyLower b.1 = "" ∨ pyLower b.1 ∈ ABILITY_SCORES)

/-- Non-negative racial and subracial ability bonuses (true of the SRD
data).  Under this condition every `_score_race_for_class` /
`_score_subrace_for_class` weight is positive (a zero score falls back to
1.0), so the weighted race/subrace draws cannot raise `ValueError`; with a
negative bonus they can (see the C2 counterexample). -/
def nonnegBonuses (ds : Dataset) : Prop :=
  (∀ p ∈ ds.races, ∀ b ∈ p.2.abilityBonuses, 0 ≤ b.2) ∧
  (∀ p ∈ ds.races, ∀ q ∈ p.2.subraces, ∀ b ∈ q.2.abilityBonuses, 0 ≤ b.2)

/- ------------------------------------------------------------------ -/
/- Theorems.                                                          -/
/- ------------------------------------------------------------------ -/

theorem lookupL_cons {α : Type} (p : String × α) (rest : List (String × α)) (k : String) :
    lookupL (p :: rest) k = if p.1 = k then some p.2 else lookupL rest k := by
  by_cases hp : p.1 = k
  · simp [lookupL, List.find?_cons_of_pos, hp]
  · simp [lookupL, List.find?_cons_of_neg, hp]

theorem lookupL_map_replace {α : Type} (m : List (String × α)) (k : String) (v : α)
    (h : lookupL m k ≠ none) :
    lookupL (m.map (fun p => if p.1 = k then (p.1, v) else p)) k = some v := by
  induction m with
  | nil => simp [lookupL] at h
  | cons p rest ih =>
    by_cases hp : p.1 = k
    · simp [List.map_cons, hp, lookupL_cons]
    · rw [lookupL_cons] at h
      simp only [List.map_cons, if_neg hp, lookupL_cons, if_neg hp] at *
      exact ih h

theorem lookupL_append {α : Type} (m₁ m₂ : List (String × α)) (k : String) :
    lookupL (m₁ ++ m₂) k = (lookupL m₁ k).orElse (fun _ => lookupL m₂ k) := by
  induction m₁ with
  | nil => simp [lookupL]
  | cons p rest ih =>
    by_cases hp : p.1 = k
    · simp [lookupL_cons, hp]
    · simp [lookupL_cons, hp, ih]

theorem lookupL_dictSet_self {α : Type} (m : List (String × α)) (k : String)
    (v : α) : lookupL (dictSet m k v) k = some v := by
  unfold dictSet
  by_cases h : (m.find? (fun p => p.1 = k)).isSome
  · rw [if_pos h]
    apply lookupL_map_replace
    simp only [lookupL]
    rw [Option.isSome_iff_exists] at h
    rcases h with ⟨x, hx⟩
    simp [hx]
  · rw [if_neg h]
    rw [lookupL_append]
    have h2 : Option.map (fun p => p.2) (List.find? (fun p => decide (p.1 = k)) m)
        = none := by
      rw [Option.not_isSome_iff_eq_none] at h
      simp [h]
    simp only [lookupL, h2]
    simp [List.find?]

theorem lookupL_map_replace_ne {α : Type} (m : List (String × α)) (k b : String) (v : α)
    (hb : b ≠ k) :
    lookupL (m.map (fun p => if p.1 = k then (p.1, v) else p)) b = lookupL m b := by
  induction m with
  | nil => simp [lookupL]
  | cons p rest ih =>
    by_cases hp : p.1 = k
    · have hpb : ¬ p.1 = b := fun hh => hb (hh ▸ hp ▸ rfl)
      simp [List.map_cons, if_pos hp, lookupL_cons, hpb, ih]
    · by_cases hpb : p.1 = b
      · simp [List.map_cons, if_neg hp, lookupL_cons, hpb, hb]
      · simp [List.map_cons, if_neg hp, lookupL_cons, hpb, ih]

theorem lookupL_dictSet_ne {α : Type} (m : List (String × α)) (k b : String)
    (v : α) (hb : b ≠ k) : lookupL (dictSet m k v) b = lookupL m b := by
  unfold dictSet
  split
  · exact lookupL_map_replace_ne m k b v hb
  · rw [lookupL_append]
    rcases hx : lookupL m b with _ | x
    · simp [lookupL_cons, lookupL, Ne.symm hb]
    · simp

theorem stripChars_eq_nil_iff (l : List Char) :
    stripChars l = [] ↔ ∀ c ∈ l, c.isWhitespace := by
  unfold stripChars
  rw [List.reverse_eq_nil_iff, List.dropWhile_eq_nil_iff]
  constructor
  · intro h c hc
    rw [← List.takeWhile_append_dropWhile (p := Char.isWhitespace) (l := l)] at hc
    rcases List.mem_append.mp hc with h1 | h2
    · exact List.mem_takeWhile_imp h1
    · exact h c (List.mem_reverse.mpr h2)
  · intro h c hc
    exact h c ((List.dropWhile_sublist _).subset (List.mem_reverse.mp hc))

theorem pyStrip_eq_empty_iff (s : String) :
    pyStrip s = "" ↔ ∀ c ∈ s.data, c.isWhitespace := by
  rw [← stripChars_eq_nil_iff]
  constructor
  · intro h
    have := congrArg String.data h
    simpa [pyStrip] using this
  · intro h
    simp [pyStrip, h]

theorem lockField_name (d : Draft) (f : String) (b : Bool) :
    (lockField d f b).name = d.name := by
  cases b <;> rfl

theorem isLocked_lockField_self (d : Draft) (f : String) (b : Bool) :
    isLocked (lockField d f b) f = b := by
  cases b <;> simp [lockField, isLocked]

/-- C10: `set_name` with an empty or all-whitespace argument restores the
default name `"New Adventurer"` and unlocks the `name` field; any argument
with a non-whitespace character stores its stripped form and locks the
field; in particular the draft's name is never empty after `set_name`. -/
theorem claim10_set_name_default (vm : VM) (s : String) :
    ((∀ c ∈ s.data, c.isWhitespace) →
        (setName vm s).draft.name = "New Adventurer" ∧
        isLocked (setName vm s).draft "name" = false) ∧
    ((¬ ∀ c ∈ s.data, c.isWhitespace) →
        (setName vm s).draft.name = pyStrip s ∧
        isLocked (setName vm s).draft "name" = true) ∧
    (setName vm s).draft.name ≠ "" := by
  by_cases h : pyStrip s = ""
  · refine ⟨fun _ => ?_, fun hw => absurd ((pyStrip_eq_empty_iff s).mp h) hw, ?_⟩
    · constructor
      · simp [setName, h, lockField_name]
      · simpa [setName, h] using isLocked_lockField_self _ "name" false
    · simp [setName, h, lockField_name]
  · have hw : ¬ ∀ c ∈ s.data, c.isWhitespace :=
      fun hws => h ((pyStrip_eq_empty_iff s).mpr hws)
    refine ⟨fun hws => absurd hws hw, fun _ => ?_, ?_⟩
    · constructor
      · simp [setName, h, lockField_name]
      · simpa [setName, h] using isLocked_lockField_self _ "name" true
    · simp [setName, h, lockField_name]

theorem claim10_set_name_default_witness :
    (setName {} "  Alden  ").draft.name = "Alden" ∧
    (setName {} "   ").draft.name = "New Adventurer" ∧
    isLocked (setName {} "   ").draft "name" = false := by
  refine ⟨?_, ?_, ?_⟩
  · have := ((claim10_set_name_default {} "  Alden  ").2.1 (by decide)).1
    rw [this]; decide
  · exact ((claim10_set_name_default {} "   ").1 (by decide)).1
  · exact ((claim10_set_name_default {} "   ").1 (by decide)).2

/-- C3: `compute_hit_points` — with a manual override the result is
`max(override, level)`; without one, for a resolved class with a positive
hit die `H` the result is `H + CON` at level 1 plus
`max(1, H / 2 + 1 + CON)` per additional level, floored at the character's
level; and the result is never below the level. -/
theorem claim3_compute_hit_points (d : Draft) (c : ClassD) :
    (∀ (hp : Int) (cd : Option ClassD), d.manualHitPoints = some hp →
        computeHitPoints d cd = max hp d.level) ∧
    (d.manualHitPoints = none → 0 < c.hitDie → 1 ≤ d.level →
        computeHitPoints d (some c) =
          max (c.hitDie + d.abilityModifier "con" +
              max 1 (averageHitDie c.hitDie + d.abilityModifier "con") *
                (d.level - 1))
            d.level) ∧
    (∀ cd : Option ClassD, d.level ≤ computeHitPoints d cd) := by
  refine ⟨?_, ?_, ?_⟩
  · intro hp cd h
    cases cd <;> simp [computeHitPoints, h]
  · intro h hdie hlvl
    simp only [computeHitPoints, h]
    rw [if_neg (by omega : ¬ c.hitDie = 0)]
    by_cases hl : 1 < d.level
    · rw [if_pos hl]
    · have h1 : d.level = 1 := by omega
      rw [if_neg hl, h1]
      simp
  · intro cd
    rcases hm : d.manualHitPoints with _ | hp
    · rcases cd with _ | c'
      · simp only [computeHitPoints, hm]
        exact le_max_left _ _
      · simp only [computeHitPoints, hm]
        exact le_max_right _ _
    · simp only [computeHitPoints, hm]
      exact le_max_right _ _

theorem claim3_compute_hit_points_witness :
    computeHitPoints { manualHitPoints := some 3, level := 10 } none = 10 ∧
    computeHitPoints { level := 3 } (some exClassFighter) = 22 := by
  constructor
  · have := (claim3_compute_hit_points
      { manualHitPoints := some 3, level := 10 } exClassFighter).1 3 none rfl
    rw [this]; decide
  · have := (claim3_compute_hit_points { level := 3 } exClassFighter).2.1
      rfl (by decide) (by decide)
    rw [this]; decide

theorem runSig_append (n : Nat) (a b : List SigOp) :
    runSig n (a ++ b) = runSig n a ++ runSig n b := by
  induction a with
  | nil => simp [runSig]
  | cons op rest ih => simp [runSig, ih]

mutual

theorem runSig_suspended (n : Nat) (ops : List SigOp)
    (h : guardedOnly ops = true) : runSig (n + 1) ops = [] := by
  match ops with
  | [] => simp [runSig]
  | op :: rest =>
    have h2 := (Bool.and_eq_true _ _).mp (by simpa [guardedOnly] using h)
    simp [runSig, runSigOp_suspended n op h2.1, runSig_suspended n rest h2.2]

theorem runSigOp_suspended (n : Nat) (op : SigOp)
    (h : guardedOnlyOp op = true) : runSigOp (n + 1) op = [] := by
  match op with
  | .emit c => simp [runSigOp]
  | .fire c => simp [guardedOnlyOp] at h
  | .suspended body =>
    simp only [runSigOp]
    exact runSig_suspended (n + 1) body (by simpa [guardedOnlyOp] using h)

end

/-- C9: notification suspension composes reentrantly — (i) any guarded
emissions inside a suspension scope (however deeply nested) deliver
nothing; (ii) a guarded emit after the outermost scope closes delivers
again, exactly once; (iii) a guarded emit delivers exactly when the
suspension counter is zero; (iv) each public mutator trace delivers every
channel at most once, and the whole of `randomize_character` delivers each
of the three channels exactly once. -/
theorem claim9_signal_suspension :
    (∀ ops, guardedOnly ops = true → runSig 0 [SigOp.suspended ops] = []) ∧
    (∀ ops c, guardedOnly ops = true →
        runSig 0 [SigOp.suspended ops, SigOp.emit c] = [c]) ∧
    (∀ c, runSigOp 0 (SigOp.emit c) = [c]) ∧
    (∀ n c, 0 < n → runSigOp n (SigOp.emit c) = []) ∧
    runSig 0 refreshEverythingOps = [Channel.choices, Channel.derived, Channel.state] ∧
    runSig 0 stateOnlyOps = [Channel.state] ∧
    runSig 0 derivedOnlyOps = [Channel.derived] ∧
    runSig 0 randomizeOps = [Channel.state, Channel.choices, Channel.derived] ∧
    (∀ c, (runSig 0 refreshEverythingOps).count c ≤ 1) ∧
    (∀ c, (runSig 0 randomizeOps).count c = 1) := by
  have htraces1 :
      runSig 0 refreshEverythingOps = [Channel.choices, Channel.derived, Channel.state] := by
    simp [refreshEverythingOps, rebuildOps, refreshDerivedOps, runSig, runSigOp]
  have htraces2 : runSig 0 randomizeOps = [Channel.state, Channel.choices, Channel.derived] := by
    simp [randomizeOps, rebuildOps, refreshDerivedOps, runSig, runSigOp,
      runSig_append,
      runSig_suspended 0 (rebuildOps ++ refreshDerivedOps) (by decide)]
  refine ⟨?_, ?_, ?_, ?_, htraces1, ?_, ?_, htraces2, ?_, ?_⟩
  · intro ops h
    simp [runSig, runSigOp, runSig_suspended 0 ops h]
  · intro ops c h
    simp [runSig, runSigOp, runSig_suspended 0 ops h]
  · intro c
    simp [runSigOp]
  · intro n c hn
    have hn' : ¬ n = 0 := by omega
    simp [runSigOp, hn']
  · simp [stateOnlyOps, runSig, runSigOp]
  · simp [derivedOnlyOps, refreshDerivedOps, runSig, runSigOp]
  · intro c
    rw [htraces1]
    cases c <;> decide
  · intro c
    rw [htraces2]
    cases c <;> decide

theorem claim9_signal_suspension_witness :
    runSig 0 [SigOp.suspended [SigOp.emit Channel.derived]] = [] ∧
    runSig 0 [SigOp.suspended [SigOp.emit Channel.derived],
              SigOp.emit Channel.state] = [Channel.state] ∧
    runSigOp 3 (SigOp.emit Channel.choices) = [] :=
  ⟨claim9_signal_suspension.1 [SigOp.emit Channel.derived] (by rfl),
   claim9_signal_suspension.2.1 [SigOp.emit Channel.derived] Channel.state (by rfl),
   claim9_signal_suspension.2.2.2.1 3 Channel.choices (by decide)⟩

theorem toFinset_dedup_list (l : List String) : l.dedup.toFinset = l.toFinset := by
  ext x; simp [List.mem_dedup]

/-- C4: `set_choice_selection` — ids not among the group's options are
filtered out; when the remainder fits within `choose` it is stored exactly;
when it exceeds `choose` the stored selection has exactly `choose` elements
and they are the lexicographically smallest ones (every stored id is
strictly below every legal-but-dropped id); the operation is total. -/
theorem claim4_selection_truncation (g : ChoiceGroup) (ids : List String)
    (hpos : 0 < g.choose) :
    (∀ x ∈ choiceSelectionStored g ids,
        x ∈ ids ∧ g.options.any (fun o => o.id = x) = true) ∧
    (((ids.filter (fun sid => g.options.any (fun o => o.id = sid))).toFinset.card : Int) ≤ g.choose →
        choiceSelectionStored g ids =
          (ids.filter (fun sid => g.options.any (fun o => o.id = sid))).toFinset) ∧
    (g.choose < ((ids.filter (fun sid => g.options.any (fun o => o.id = sid))).toFinset.card : Int) →
        ((choiceSelectionStored g ids).card : Int) = g.choose ∧
        (∀ x ∈ choiceSelectionStored g ids,
          ∀ y ∈ (ids.filter (fun sid => g.options.any (fun o => o.id = sid))).toFinset,
            y ∉ choiceSelectionStored g ids → x < y)) := by
  haveI hTot : IsTotal String (fun a b : String => a.data ≤ b.data) :=
    ⟨fun a b => le_total a.data b.data⟩
  haveI hTrans : IsTrans String (fun a b : String => a.data ≤ b.data) :=
    ⟨fun a b c hab hbc => le_trans hab hbc⟩
  set F : List String :=
    ids.filter (fun sid => g.options.any (fun o => o.id = sid)) with hF
  set L : List String := F.dedup.insertionSort (fun a b : String => a.data ≤ b.data)
    with hL
  have hperm : L.Perm F.dedup := List.perm_insertionSort _ _
  have hnodupL : L.Nodup := (hperm.nodup_iff).mpr F.nodup_dedup
  have hsorted : L.Sorted (fun a b : String => a.data ≤ b.data) :=
    List.sorted_insertionSort _ _
  have hmemL : ∀ x, x ∈ L ↔ x ∈ F := by
    intro x
    rw [hperm.mem_iff, List.mem_dedup]
  have hlenL : L.length = F.toFinset.card := by
    rw [hperm.length_eq, ← List.toFinset_card_of_nodup F.nodup_dedup,
      toFinset_dedup_list]
  have hstored : choiceSelectionStored g ids =
      if g.choose < (F.toFinset.card : Int) then
        (pySliceTo L g.choose).toFinset
      else F.toFinset := by
    simp only [choiceSelectionStored, ← hF, ← hL, toFinset_dedup_list]
  by_cases hover : g.choose < (F.toFinset.card : Int)
  · rw [if_pos hover] at hstored
    have hslice : pySliceTo L g.choose = L.take g.choose.toNat := by
      simp [pySliceTo, Int.le_of_lt hpos]
    rw [hslice] at hstored
    have hkle : g.choose.toNat ≤ L.length := by
      rw [hlenL]; omega
    have hsub : ∀ x ∈ choiceSelectionStored g ids, x ∈ F := by
      intro x hx
      rw [hstored, List.mem_toFinset] at hx
      exact (hmemL x).mp ((L.take_sublist _).subset hx)
    refine ⟨?_, ?_, ?_⟩
    · intro x hx
      have := List.mem_filter.mp (hsub x hx)
      exact ⟨this.1, this.2⟩
    · intro hle; omega
    · intro _
      constructor
      · rw [hstored, List.toFinset_card_of_nodup
          ((L.take_sublist _).nodup hnodupL), List.length_take]
        omega
      · intro x hx y hy hyn
        have hxL : x ∈ L.take g.choose.toNat := by
          rw [hstored, List.mem_toFinset] at hx; exact hx
        have hyL : y ∈ L := (hmemL y).mpr (List.mem_toFinset.mp hy)
        have hyd : y ∈ L.drop g.choose.toNat := by
          have hsplit : L = L.take g.choose.toNat ++ L.drop g.choose.toNat :=
            (List.take_append_drop _ _).symm
          rcases List.mem_append.mp (hsplit ▸ hyL) with h1 | h2
          · exact absurd (by rw [hstored, List.mem_toFinset]; exact h1) hyn
          · exact h2
        have hle : x.data ≤ y.data :=
          hsorted.rel_of_mem_take_of_mem_drop hxL hyd
        have hne : x ≠ y := by
          intro hxy
          exact hyn (by rw [← hxy] at hy ⊢; rw [hstored, List.mem_toFinset]; exact hxL)
        have hdne : x.data ≠ y.data := by
          intro hdd
          apply hne
          cases x; cases y
          exact congrArg String.mk (by simpa using hdd)
        have : x.toList < y.toList := lt_of_le_of_ne hle hdne
        exact String.lt_iff_toList_lt.mpr this
  · rw [if_neg hover] at hstored
    refine ⟨?_, ?_, ?_⟩
    · intro x hx
      rw [hstored, List.mem_toFinset] at hx
      have := List.mem_filter.mp hx
      exact ⟨this.1, this.2⟩
    · intro _; exact hstored
    · intro h; exact absurd h hover

theorem claim4_selection_truncation_witness :
    0 < exGroup4.choose ∧
    choiceSelectionStored exGroup4
      ["language-elvish", "language-dwarvish", "language-orc"] =
      {"language-dwarvish"} ∧
    (∀ x ∈ choiceSelectionStored exGroup4
        ["language-elvish", "language-dwarvish", "language-orc"],
      x ∈ (["language-elvish", "language-dwarvish", "language-orc"] : List String) ∧
        exGroup4.options.any (fun o => o.id = x) = true) := by
  refine ⟨by decide, by decide, ?_⟩
  exact (claim4_selection_truncation exGroup4
    ["language-elvish", "language-dwarvish", "language-orc"] (by decide)).1

theorem filterSelections_mem_find (G : List ChoiceGroup)
    (sels : List (String × Finset String)) :
    ∀ p ∈ filterSelections G sels,
      ∃ g, G.find? (fun g => g.id = p.1) = some g := by
  intro p hp
  rcases List.mem_filterMap.mp hp with ⟨a, _, hfa⟩
  rcases hfind : G.find? (fun g => g.id = a.1) with _ | g
  · rw [hfind] at hfa; simp at hfa
  · rw [hfind] at hfa
    simp only [Option.some.injEq] at hfa
    refine ⟨g, ?_⟩
    rw [← hfa]
    exact hfind

/-- C5 (amended): the selection filter of `_rebuild_choice_groups` drops
every selection whose group is not among the freshly built groups,
intersects every surviving selection with its group's new legal option set,
and does nothing else — in particular a legal selection survives in full
even when it exceeds the group's `choose` quantity (no trimming happens at
rebuild; trimming only ever happens in `set_choice_selection`). -/
theorem claim5_rebuild_selection_filter (ds : Dataset) (vm : VM) :
    (∀ p ∈ (rebuildChoiceGroups ds vm).draft.choiceSelections,
        ∃ g, (buildChoiceGroups ds vm.draft).find? (fun g => g.id = p.1) = some g) ∧
    (∀ gid S, (gid, S) ∈ vm.draft.choiceSelections →
        ∀ g, (buildChoiceGroups ds vm.draft).find? (fun g => g.id = gid) = some g →
          (gid, S.filter (fun x => x ∈ g.optionIds)) ∈
            (rebuildChoiceGroups ds vm).draft.choiceSelections) ∧
    (∀ gid S, (gid, S) ∈ vm.draft.choiceSelections →
        (buildChoiceGroups ds vm.draft).find? (fun g => g.id = gid) = none →
        ∀ T, (gid, T) ∉ (rebuildChoiceGroups ds vm).draft.choiceSelections) ∧
    (∀ gid S g, (gid, S) ∈ vm.draft.choiceSelections →
        (buildChoiceGroups ds vm.draft).find? (fun g => g.id = gid) = some g →
        (∀ x ∈ S, x ∈ g.optionIds) →
        (gid, S) ∈ (rebuildChoiceGroups ds vm).draft.choiceSelections) := by
  have hsel : (rebuildChoiceGroups ds vm).draft.choiceSelections =
      filterSelections (buildChoiceGroups ds vm.draft) vm.draft.choiceSelections := rfl
  refine ⟨?_, ?_, ?_, ?_⟩
  · rw [hsel]
    exact filterSelections_mem_find _ _
  · intro gid S hmem g hfind
    rw [hsel]
    refine List.mem_filterMap.mpr ⟨(gid, S), hmem, ?_⟩
    simp only [hfind]
  · intro gid S _ hfind T hT
    rw [hsel] at hT
    rcases filterSelections_mem_find _ _ _ hT with ⟨g, hg⟩
    rw [hfind] at hg
    exact Option.noConfusion hg
  · intro gid S g hmem hfind hlegal
    rw [hsel]
    simp only [filterSelections]
    refine List.mem_filterMap.mpr ⟨(gid, S), hmem, ?_⟩
    simp only [hfind, Option.some.injEq]
    rw [Finset.filter_eq_self.mpr hlegal]

/-- C5 counterexample: on `exDsLang`, the rebuilt group
`race:human:languages` allows `choose = 1`, yet the stored two-element
selection survives the rebuild in full — the excess is not trimmed, so the
claim's trimming clause is false at this input. -/
theorem claim5_counterexample :
    (buildChoiceGroups exDsLang exVM5.draft).map (fun g => (g.id, g.choose)) =
      [("race:human:languages", 1)] ∧
    (rebuildChoiceGroups exDsLang exVM5).draft.choiceSelections =
      [("race:human:languages", {"language-dwarvish", "language-elvish"})] ∧
    ({"language-dwarvish", "language-elvish"} : Finset String).card = 2 := by
  exact ⟨by decide, by decide, by decide⟩

theorem buildChoiceGroups_structural (ds : Dataset) (d1 d2 : Draft)
    (h1 : d1.race = d2.race) (h2 : d1.subrace = d2.subrace)
    (h3 : d1.characterClass = d2.characterClass)
    (h4 : d1.background = d2.background) :
    buildChoiceGroups ds d1 = buildChoiceGroups ds d2 := by
  simp only [buildChoiceGroups, h1, h2, h3, h4]

theorem filterSelections_idem (G : List ChoiceGroup)
    (sels : List (String × Finset String)) :
    filterSelections G (filterSelections G sels) = filterSelections G sels := by
  induction sels with
  | nil => rfl
  | cons q rest ih =>
    rcases hfind : G.find? (fun g => g.id = q.1) with _ | g
    · have hstep : filterSelections G (q :: rest) = filterSelections G rest := by
        simp [filterSelections, List.filterMap_cons, hfind]
      rw [hstep, ih]
    · have hstep : filterSelections G (q :: rest) =
          (q.1, q.2.filter (fun oid => oid ∈ g.optionIds)) ::
            filterSelections G rest := by
        simp [filterSelections, List.filterMap_cons, hfind]
      rw [hstep]
      have hstep2 : filterSelections G
          ((q.1, q.2.filter (fun oid => oid ∈ g.optionIds)) ::
            filterSelections G rest) =
          (q.1, (q.2.filter (fun oid => oid ∈ g.optionIds)).filter
              (fun oid => oid ∈ g.optionIds)) ::
            filterSelections G (filterSelections G rest) := by
        simp [filterSelections, List.filterMap_cons, hfind]
      rw [hstep2, ih, Finset.filter_filter]
      simp only [and_self]

theorem filterSelections_of_legal (G : List ChoiceGroup)
    (sels : List (String × Finset String))
    (h : ∀ p ∈ sels, ∃ g, G.find? (fun g => g.id = p.1) = some g ∧
        ∀ x ∈ p.2, x ∈ g.optionIds) :
    filterSelections G sels = sels := by
  induction sels with
  | nil => rfl
  | cons q rest ih =>
    rcases h q (List.mem_cons_self q rest) with ⟨g, hfind, hlegal⟩
    simp only [filterSelections, List.filterMap_cons, hfind]
    rw [Finset.filter_eq_self.mpr hlegal]
    have := ih (fun p hp => h p (List.mem_cons_of_mem q hp))
    simpa [filterSelections] using congrArg (List.cons q) this

/-- C6: choice-group rebuild is idempotent and selection-stable — rebuilding
the rebuilt view-model changes nothing; the built group list depends only on
the structural fields (race, subrace, class, background), so an unchanged
structural configuration reproduces the identical groups; and when every
stored selection references a built group and lies inside its legal option
set, the rebuild leaves the draft (hence every stored selection) untouched. -/
theorem claim6_rebuild_idempotent_stable (ds : Dataset) (vm : VM) :
    rebuildChoiceGroups ds (rebuildChoiceGroups ds vm) = rebuildChoiceGroups ds vm ∧
    (∀ d2 : Draft, vm.draft.race = d2.race → vm.draft.subrace = d2.subrace →
        vm.draft.characterClass = d2.characterClass →
        vm.draft.background = d2.background →
        buildChoiceGroups ds vm.draft = buildChoiceGroups ds d2) ∧
    ((∀ p ∈ vm.draft.choiceSelections, ∃ g,
        (buildChoiceGroups ds vm.draft).find? (fun g => g.id = p.1) = some g ∧
        ∀ x ∈ p.2, x ∈ g.optionIds) →
      rebuildChoiceGroups ds vm =
        { draft := vm.draft, choiceGroups := buildChoiceGroups ds vm.draft }) := by
  refine ⟨?_, ?_, ?_⟩
  · have hgroups : buildChoiceGroups ds (rebuildChoiceGroups ds vm).draft =
        buildChoiceGroups ds vm.draft :=
      buildChoiceGroups_structural ds _ _ rfl rfl rfl rfl
    show rebuildChoiceGroups ds (rebuildChoiceGroups ds vm) = rebuildChoiceGroups ds vm
    simp only [rebuildChoiceGroups] at hgroups ⊢
    rw [hgroups, filterSelections_idem]
  · intro d2 h1 h2 h3 h4
    exact buildChoiceGroups_structural ds _ _ h1 h2 h3 h4
  · intro h
    simp only [rebuildChoiceGroups]
    rw [filterSelections_of_legal _ _ h]

theorem claim6_rebuild_idempotent_stable_witness :
    rebuildChoiceGroups exDsLang exVM6 =
      { draft := exVM6.draft, choiceGroups := buildChoiceGroups exDsLang exVM6.draft } := by
  apply (claim6_rebuild_idempotent_stable exDsLang exVM6).2.2
  intro p hp
  have hp' : p = ("race:human:languages", ({"language-elvish"} : Finset String)) := by
    simpa [exVM6, exDraft6] using hp
  subst hp'
  refine ⟨⟨"race:human:languages", "race", "Human Bonus Languages", 1,
    [⟨"language-dwarvish", "language-dwarvish", "language", some "language-dwarvish"⟩,
     ⟨"language-elvish", "language-elvish", "language", some "language-elvish"⟩],
    none⟩, by decide, by decide⟩

theorem lockField_level (d : Draft) (f : String) (b : Bool) :
    (lockField d f b).level = d.level := by
  cases b <;> rfl

/-- C7 counterexample: `set_level(25)` on a level-1 draft neither raises nor
leaves the draft unchanged — it clamps the level to 20 and applies it; and
`set_base_ability_score` with the out-of-range score 99 clamps to 30 and
reports no error.  Only the unknown-ability case is rejected. -/
theorem claim7_counterexample :
    (setLevel {} {} 25).draft.level = 20 ∧
    ({} : VM).draft.level = 1 ∧
    (Draft.setBaseAbilityScore {} "str" 99).2 = none ∧
    lookupL (Draft.setBaseAbilityScore {} "str" 99).1.baseAbilityScores "str" =
      some 30 := by
  exact ⟨by decide, rfl, by decide, by decide⟩

/-- C7 (amended): an unknown ability identifier is rejected synchronously
with a descriptive error and the draft is returned unchanged; a known
ability with an out-of-range score is clamped into `[1, 30]` (not rejected)
leaving every other ability untouched; and `set_level` clamps its argument
into `[1, 20]` (not rejected) and never raises. -/
theorem claim7_invalid_input (d : Draft) (ability : String) (v : Int) :
    (ability ∉ ABILITY_SCORES →
        Draft.setBaseAbilityScore d ability v =
          (d, some ("Unknown ability: " ++ ability)) ∧
        Draft.setManualBonus d ability v =
          (d, some ("Unknown ability: " ++ ability))) ∧
    (ability ∈ ABILITY_SCORES →
        (Draft.setBaseAbilityScore d ability v).2 = none ∧
        lookupL (Draft.setBaseAbilityScore d ability v).1.baseAbilityScores
            ability = some (max 1 (min 30 v)) ∧
        (∀ b, b ≠ ability →
          lookupL (Draft.setBaseAbilityScore d ability v).1.baseAbilityScores b =
            lookupL d.baseAbilityScores b)) ∧
    (∀ (ds : Dataset) (vm : VM) (l : Int),
        (setLevel ds vm l).draft.level = max 1 (min 20 l)) := by
  refine ⟨?_, ?_, ?_⟩
  · intro h
    constructor
    · simp [Draft.setBaseAbilityScore, h]
    · simp [Draft.setManualBonus, h]
  · intro h
    refine ⟨?_, ?_, ?_⟩
    · simp [Draft.setBaseAbilityScore, h]
    · simp only [Draft.setBaseAbilityScore, if_pos h]
      exact lookupL_dictSet_self _ _ _
    · intro b hb
      simp only [Draft.setBaseAbilityScore, if_pos h]
      exact lookupL_dictSet_ne _ _ _ _ hb
  · intro ds vm l
    simp only [setLevel]
    split
    · omega
    · simp [refreshEverything, rebuildChoiceGroups, recalcRacialBonuses,
        lockField_level]

theorem claim7_invalid_input_witness :
    Draft.setBaseAbilityScore {} "luck" 12 =
      ({}, some "Unknown ability: luck") ∧
    (Draft.setBaseAbilityScore {} "con" (-5)).2 = none ∧
    lookupL (Draft.setBaseAbilityScore {} "con" (-5)).1.baseAbilityScores "con" =
      some 1 := by
  refine ⟨?_, ?_, ?_⟩
  · have := ((claim7_invalid_input {} "luck" 12).1 (by decide)).1
    simpa using this
  · exact ((claim7_invalid_input {} "con" (-5)).2.1 (by decide)).1
  · have := ((claim7_invalid_input {} "con" (-5)).2.1 (by decide)).2.1
    simpa using this

theorem lockField_eq (d : Draft) (f : String) (b : Bool) :
    lockField d f b =
      { d with randomizationLocks :=
          if b then insert f d.randomizationLocks
          else d.randomizationLocks.erase f } := by
  cases b <;> rfl

theorem truthyOpt_some (x : Option String) (h : truthyOpt x = true) :
    ∃ s, x = some s ∧ s ≠ "" := by
  cases x with
  | none => simp [truthyOpt] at h
  | some s =>
    refine ⟨s, rfl, ?_⟩
    intro hs
    rw [hs] at h
    simp [truthyOpt] at h

theorem stageClass_frame (ds : Dataset) (o : Oracle) (d d1 : Draft)
    (cd : ClassD) (h : stageClass ds o d = Except.ok (d1, cd)) :
    d1.characterClass ≠ none ∧ d1.level = d.level ∧ d1.race = d.race ∧
    d1.subrace = d.subrace ∧ d1.subclass = d.subclass ∧
    d1.background = d.background ∧ d1.alignment = d.alignment ∧
    d1.gender = d.gender ∧ d1.name = d.name ∧
    isLocked d1 "level" = isLocked d "level" ∧
    d1.spellsKnown = d.spellsKnown ∧ d1.spellsPrepared = d.spellsPrepared := by
  unfold stageClass at h
  split at h
  · rename_i htruthy
    rcases hlook : lookupL ds.classes (d.characterClass.getD "") with _ | cdv
    · rw [hlook] at h
      rcases hcl : ds.classes.map (fun p => p.2) with _ | ⟨c0, crest⟩
      · rw [hcl] at h
        simp [pyChoice, Bind.bind, Except.bind] at h
      · rw [hcl] at h
        simp only [pyChoice, Bind.bind, Except.bind, pure, Except.pure] at h
        rw [Except.ok.injEq, Prod.mk.injEq] at h
        rcases h with ⟨hd1, _⟩
        subst hd1
        rcases truthyOpt_some _ ((Bool.and_eq_true _ _).mp htruthy).2 with ⟨s, hs, _⟩
        refine ⟨by simp, rfl, rfl, rfl, rfl, rfl, rfl, rfl, rfl, rfl, rfl, rfl⟩
    · rw [hlook] at h
      simp only [pure, Except.pure, Except.ok.injEq, Prod.mk.injEq] at h
      rcases h with ⟨hd1, _⟩
      subst hd1
      rcases truthyOpt_some _ ((Bool.and_eq_true _ _).mp ‹_›).2 with ⟨s, hs, hne⟩
      exact ⟨by rw [hs]; simp, rfl, rfl, rfl, rfl, rfl, rfl, rfl, rfl, rfl, rfl, rfl⟩
  · rcases hcl : ds.classes.map (fun p => p.2) with _ | ⟨c0, crest⟩
    · rw [hcl] at h
      simp [pyChoice, Bind.bind, Except.bind] at h
    · rw [hcl] at h
      simp only [pyChoice, Bind.bind, Except.bind, pure, Except.pure,
        Except.ok.injEq, Prod.mk.injEq] at h
      rcases h with ⟨hd1, _⟩
      subst hd1
      rw [lockField_eq]
      refine ⟨by simp, rfl, rfl, rfl, rfl, rfl, rfl, rfl, rfl, ?_, rfl, rfl⟩
      simp [isLocked]

theorem pyChoice_total {α : Type} (k : Nat) (l : List α) (h : l ≠ []) :
    ∃ a, pyChoice k l = Except.ok a := by
  cases l with
  | nil => exact absurd rfl h
  | cons x xs => exact ⟨_, rfl⟩

theorem stageClass_total (ds : Dataset) (o : Oracle) (d : Draft)
    (hne : ds.classes ≠ []) : ∃ r, stageClass ds o d = Except.ok r := by
  have hmap : ds.classes.map (fun p => p.2) ≠ [] := by
    simpa using hne
  unfold stageClass
  split
  · rcases hlook : lookupL ds.classes (d.characterClass.getD "") with _ | cdv
    · rcases pyChoice_total o.classPick2 _ hmap with ⟨a, ha⟩
      exact ⟨_, by rw [ha]; rfl⟩
    · exact ⟨_, rfl⟩
  · rcases pyChoice_total o.classPick _ hmap with ⟨a, ha⟩
    exact ⟨_, by rw [ha]; rfl⟩

theorem stageLevel_frame (o : Oracle) (d : Draft) :
    (stageLevel o d).characterClass = d.characterClass ∧
    (stageLevel o d).race = d.race ∧
    (stageLevel o d).subrace = d.subrace ∧
    (stageLevel o d).subclass = d.subclass ∧
    (stageLevel o d).background = d.background ∧
    (stageLevel o d).alignment = d.alignment ∧
    (stageLevel o d).gender = d.gender ∧
    (stageLevel o d).name = d.name ∧
    (stageLevel o d).spellsKnown = d.spellsKnown ∧
    (stageLevel o d).spellsPrepared = d.spellsPrepared ∧
    (stageLevel o d).randomizationLocks = d.randomizationLocks := by
  unfold stageLevel
  split <;> exact ⟨rfl, rfl, rfl, rfl, rfl, rfl, rfl, rfl, rfl, rfl, rfl⟩

theorem stageLevel_bounds (o : Oracle) (d : Draft)
    (h20 : isLocked d "level" = true → d.level ≤ 20) :
    1 ≤ (stageLevel o d).level ∧ (stageLevel o d).level ≤ 20 := by
  unfold stageLevel
  split
  · have := Nat.mod_lt o.levelPick (show 0 < 20 by norm_num)
    simp only [Int.ofNat_eq_coe]
    omega
  · rename_i hcond
    simp only [Bool.or_eq_true, not_or, Bool.not_eq_true, Bool.not_eq_false',
      decide_eq_true_eq] at hcond
    rcases hcond with ⟨h1, h2⟩
    have := h20 h1
    omega

theorem stageLevel_locked (o : Oracle) (d : Draft)
    (h1 : isLocked d "level" = true) (h2 : 0 < d.level) :
    stageLevel o d = d := by
  have hc : (!(isLocked d "level") || decide (d.level ≤ 0)) = false := by
    rw [h1]
    simp only [Bool.not_true, Bool.false_or, decide_eq_false_iff_not, not_le]
    omega
  unfold stageLevel
  rw [hc]
  simp

theorem pyChoice_mem {α : Type} (k : Nat) (l : List α) (a : α)
    (h : pyChoice k l = Except.ok a) : a ∈ l := by
  cases l with
  | nil => simp [pyChoice] at h
  | cons x xs =>
    simp only [pyChoice, Except.ok.injEq] at h
    subst h
    have hlt : k % (xs.length + 1) < (x :: xs).length := by
      simp only [List.length_cons]
      exact Nat.mod_lt _ (Nat.succ_pos _)
    rw [List.getD_eq_getElem _ _ hlt]
    exact List.getElem_mem hlt

theorem lookupL_mem {α : Type} (m : List (String × α)) (k : String) (v : α)
    (h : lookupL m k = some v) : v ∈ m.map (fun p => p.2) := by
  unfold lookupL at h
  rcases hf : m.find? (fun p => p.1 = k) with _ | p
  · rw [hf] at h
    simp at h
  · rw [hf] at h
    simp only [Option.map_some', Option.some.injEq] at h
    subst h
    exact List.mem_map.mpr ⟨p, List.mem_of_find?_eq_some hf, rfl⟩

theorem bonusWeight4_nonneg (primary : String) (secondary : Option String)
    (b : String × Int) (h : 0 ≤ b.2) : 0 ≤ bonusWeight4 primary secondary b := by
  unfold bonusWeight4
  have hw : (0 : Int) ≤
      (if pyLower b.1 = primary then 8
       else if some (pyLower b.1) = secondary then 6 else 3) := by
    split
    · norm_num
    · split <;> norm_num
  exact mul_nonneg h hw

theorem foldl_add_nonneg (f : (String × Int) → Int) (l : List (String × Int))
    (acc : Int) (hacc : 0 ≤ acc) (hf : ∀ b ∈ l, 0 ≤ f b) :
    0 ≤ l.foldl (fun a b => a + f b) acc := by
  induction l generalizing acc with
  | nil => exact hacc
  | cons x xs ih =>
    simp only [List.foldl_cons]
    refine ih _ ?_ (fun b hb => hf b (List.mem_cons_of_mem _ hb))
    have := hf x (List.mem_cons_self _ _)
    omega

theorem scoreForClass4_nonneg (bonuses : List (String × Int)) (cd : ClassD)
    (h : ∀ b ∈ bonuses, 0 ≤ b.2) : 0 ≤ scoreForClass4 bonuses cd := by
  unfold scoreForClass4
  dsimp only
  exact foldl_add_nonneg _ bonuses 0 le_rfl
    (fun b hb => bonusWeight4_nonneg _ _ b (h b hb))

theorem raceWeights_sum_pos (ds : Dataset) (cd : ClassD) (hne : ds.races ≠ [])
    (hnn : ∀ p ∈ ds.races, ∀ b ∈ p.2.abilityBonuses, 0 ≤ b.2) :
    0 < (raceWeights ds cd).sum := by
  apply List.sum_pos
  · intro x hx
    unfold raceWeights at hx
    rcases List.mem_map.mp hx with ⟨p, hp, hxe⟩
    rw [← hxe]
    dsimp only
    by_cases hz : scoreForClass4 p.2.abilityBonuses cd = 0
    · rw [if_pos hz]
      norm_num
    · rw [if_neg hz]
      have := scoreForClass4_nonneg p.2.abilityBonuses cd (hnn p hp)
      omega
  · unfold raceWeights
    simpa using hne

theorem subraceWeights_sum_pos (race : RaceD) (cd : ClassD)
    (hne : race.subraces ≠ [])
    (hnn : ∀ q ∈ race.subraces, ∀ b ∈ q.2.abilityBonuses, 0 ≤ b.2) :
    0 < (subraceWeights race cd).sum := by
  apply List.sum_pos
  · intro x hx
    unfold subraceWeights at hx
    rcases List.mem_map.mp hx with ⟨q, hq, hxe⟩
    rw [← hxe]
    dsimp only
    by_cases hz : scoreForClass4 q.2.abilityBonuses cd = 0
    · rw [if_pos hz]
      norm_num
    · rw [if_neg hz]
      have := scoreForClass4_nonneg q.2.abilityBonuses cd (hnn q hq)
      omega
  · unfold subraceWeights
    simpa using hne

theorem pyChoicesWeighted_total {α : Type} (k : Nat) (pop : List α)
    (weights : List Int) (hpop : pop ≠ []) (hw : 0 < weights.sum) :
    ∃ a, pyChoicesWeighted k pop weights = Except.ok a := by
  rcases pyChoice_total k pop hpop with ⟨a, ha⟩
  refine ⟨a, ?_⟩
  unfold pyChoicesWeighted
  rw [if_neg (by omega)]
  exact ha

theorem pyChoicesWeighted_mem {α : Type} (k : Nat) (pop : List α)
    (weights : List Int) (a : α)
    (h : pyChoicesWeighted k pop weights = Except.ok a) : a ∈ pop := by
  unfold pyChoicesWeighted at h
  split at h
  · simp at h
  · exact pyChoice_mem _ _ _ h

theorem stageRace_frame (ds : Dataset) (cd : ClassD) (o : Oracle)
    (d d1 : Draft) (r : RaceD) (h : stageRace ds cd o d = Except.ok (d1, r)) :
    d1.race ≠ none ∧ d1.characterClass = d.characterClass ∧
    d1.level = d.level ∧ d1.subrace = d.subrace ∧ d1.subclass = d.subclass ∧
    d1.background = d.background ∧ d1.alignment = d.alignment ∧
    d1.gender = d.gender ∧ d1.name = d.name ∧
    d1.spellsKnown = d.spellsKnown ∧ d1.spellsPrepared = d.spellsPrepared := by
  unfold stageRace at h
  split at h
  · rename_i htruthy
    simp only [Bind.bind, Except.bind, pure, Except.pure] at h
    rcases hlook : lookupL ds.races (d.race.getD "") with _ | rv
    · rw [hlook] at h
      dsimp only at h
      rcases hp : pyChoice o.racePick2 (ds.races.map (fun p => p.2)) with e | rv2
      · rw [hp] at h
        simp at h
      · rw [hp] at h
        simp only [Except.ok.injEq, Prod.mk.injEq] at h
        rcases h with ⟨hd1, -⟩
        subst hd1
        exact ⟨by simp, rfl, rfl, rfl, rfl, rfl, rfl, rfl, rfl, rfl, rfl⟩
    · rw [hlook] at h
      dsimp only at h
      simp only [Except.ok.injEq, Prod.mk.injEq] at h
      rcases h with ⟨hd1, -⟩
      subst hd1
      rcases truthyOpt_some _ ((Bool.and_eq_true _ _).mp htruthy).2 with ⟨s, hs, -⟩
      exact ⟨by rw [hs]; simp, rfl, rfl, rfl, rfl, rfl, rfl, rfl, rfl, rfl, rfl⟩
  · simp only [Bind.bind, Except.bind, pure, Except.pure] at h
    rcases hw : pickWeightedRace ds cd o.racePick with e | rv
    · rw [hw] at h
      simp at h
    · rw [hw] at h
      dsimp only at h
      simp only [lockField_eq, Except.ok.injEq, Prod.mk.injEq] at h
      rcases h with ⟨hd1, -⟩
      subst hd1
      exact ⟨by simp, rfl, rfl, rfl, rfl, rfl, rfl, rfl, rfl, rfl, rfl⟩

theorem stageRace_mem (ds : Dataset) (cd : ClassD) (o : Oracle)
    (d d1 : Draft) (r : RaceD) (h : stageRace ds cd o d = Except.ok (d1, r)) :
    r ∈ ds.races.map (fun p => p.2) := by
  unfold stageRace at h
  split at h
  · simp only [Bind.bind, Except.bind, pure, Except.pure] at h
    rcases hlook : lookupL ds.races (d.race.getD "") with _ | rv
    · rw [hlook] at h
      dsimp only at h
      rcases hp : pyChoice o.racePick2 (ds.races.map (fun p => p.2)) with e | rv2
      · rw [hp] at h
        simp at h
      · rw [hp] at h
        simp only [Except.ok.injEq, Prod.mk.injEq] at h
        rcases h with ⟨-, hr⟩
        exact hr ▸ pyChoice_mem _ _ _ hp
    · rw [hlook] at h
      dsimp only at h
      simp only [Except.ok.injEq, Prod.mk.injEq] at h
      rcases h with ⟨-, hr⟩
      exact hr ▸ lookupL_mem _ _ _ hlook
  · simp only [Bind.bind, Except.bind, pure, Except.pure] at h
    rcases hw : pickWeightedRace ds cd o.racePick with e | rv
    · rw [hw] at h
      simp at h
    · rw [hw] at h
      dsimp only at h
      simp only [Except.ok.injEq, Prod.mk.injEq] at h
      rcases h with ⟨-, hr⟩
      exact hr ▸ pyChoicesWeighted_mem _ _ _ _ hw

theorem stageRace_total (ds : Dataset) (cd : ClassD) (o : Oracle) (d : Draft)
    (hne : ds.races ≠ []) (hwsum : 0 < (raceWeights ds cd).sum) :
    ∃ r, stageRace ds cd o d = Except.ok r := by
  have hmap : ds.races.map (fun p => p.2) ≠ [] := by simpa using hne
  rcases pyChoicesWeighted_total o.racePick (ds.races.map (fun p => p.2))
    (raceWeights ds cd) hmap hwsum with ⟨a, ha⟩
  rcases pyChoice_total o.racePick2 (ds.races.map (fun p => p.2)) hmap with ⟨a2, ha2⟩
  unfold stageRace
  split
  · rcases hlook : lookupL ds.races (d.race.getD "") with _ | rv
    · refine ⟨({ d with race := some a2.index }, a2), ?_⟩
      simp only [Bind.bind, Except.bind, pure, Except.pure, hlook, ha2]
    · refine ⟨(d, rv), ?_⟩
      simp only [Bind.bind, Except.bind, pure, Except.pure, hlook]
  · refine ⟨(lockField { d with race := some a.index } "race" false, a), ?_⟩
    simp only [Bind.bind, Except.bind, pure, Except.pure, pickWeightedRace, ha]

theorem stageSubrace_frame (o : Oracle) (race : RaceD) (cd : ClassD)
    (d d1 : Draft) (h : stageSubrace o race cd d = Except.ok d1) :
    d1.characterClass = d.characterClass ∧ d1.race = d.race ∧
    d1.level = d.level ∧ d1.subclass = d.subclass ∧
    d1.background = d.background ∧ d1.alignment = d.alignment ∧
    d1.gender = d.gender ∧ d1.name = d.name ∧
    d1.spellsKnown = d.spellsKnown ∧ d1.spellsPrepared = d.spellsPrepared := by
  unfold stageSubrace at h
  split at h
  · split at h
    · simp only [pure, Except.pure, Except.ok.injEq] at h
      subst h
      exact ⟨rfl, rfl, rfl, rfl, rfl, rfl, rfl, rfl, rfl, rfl⟩
    · simp only [Bind.bind, Except.bind] at h
      rcases hw : pickWeightedSubrace race cd o.subracePick with e | sub
      · rw [hw] at h
        simp at h
      · rw [hw] at h
        simp only [pure, Except.pure, lockField_eq, Except.ok.injEq] at h
        subst h
        exact ⟨rfl, rfl, rfl, rfl, rfl, rfl, rfl, rfl, rfl, rfl⟩
  · simp only [pure, Except.pure, Except.ok.injEq] at h
    subst h
    exact ⟨rfl, rfl, rfl, rfl, rfl, rfl, rfl, rfl, rfl, rfl⟩

theorem stageSubrace_total (o : Oracle) (race : RaceD) (cd : ClassD)
    (d : Draft)
    (hwsum : race.subraces ≠ [] → 0 < (subraceWeights race cd).sum) :
    ∃ r, stageSubrace o race cd d = Except.ok r := by
  unfold stageSubrace
  split
  · rename_i hne
    have hsubne : race.subraces ≠ [] := by
      simp only [Bool.not_eq_true'] at hne
      intro hnil
      rw [hnil] at hne
      simp [List.isEmpty] at hne
    have hmap : race.subraces.map (fun p => p.2) ≠ [] := by simpa using hsubne
    rcases pyChoicesWeighted_total o.subracePick (race.subraces.map (fun p => p.2))
      (subraceWeights race cd) hmap (hwsum hsubne) with ⟨a, ha⟩
    split
    · exact ⟨d, rfl⟩
    · refine ⟨lockField { d with subrace := some a.index } "subrace" false, ?_⟩
      simp only [Bind.bind, Except.bind, pure, Except.pure, pickWeightedSubrace, ha]
  · exact ⟨_, rfl⟩

theorem stageSubclass_frame (o : Oracle) (cd : ClassD) (d d1 : Draft)
    (h : stageSubclass o cd d = Except.ok d1) :
    d1.characterClass = d.characterClass ∧ d1.race = d.race ∧
    d1.level = d.level ∧ d1.subrace = d.subrace ∧
    d1.background = d.background ∧ d1.alignment = d.alignment ∧
    d1.gender = d.gender ∧ d1.name = d.name ∧
    d1.spellsKnown = d.spellsKnown ∧ d1.spellsPrepared = d.spellsPrepared := by
  unfold stageSubclass at h
  split at h
  · split at h
    · simp only [pure, Except.pure, Except.ok.injEq] at h
      subst h
      exact ⟨rfl, rfl, rfl, rfl, rfl, rfl, rfl, rfl, rfl, rfl⟩
    · dsimp only at h
      split at h
      · simp only [pure, Except.pure, lockField_eq, Except.ok.injEq] at h
        subst h
        exact ⟨rfl, rfl, rfl, rfl, rfl, rfl, rfl, rfl, rfl, rfl⟩
      · simp only [Bind.bind, Except.bind] at h
        rename_i heligible
        rcases hel : (cd.subclasses.map (fun p => p.2)).filter
            (fun sc =>
              decide ((match sc.featureLevels.min? with
                | some m => m
                | none => 3) ≤ d.level)) with _ | ⟨e0, erest⟩
        · rw [hel] at h
          simp [pyChoice] at h
        · rw [hel] at h
          simp only [pyChoice, pure, Except.pure, lockField_eq,
            Except.ok.injEq] at h
          subst h
          exact ⟨rfl, rfl, rfl, rfl, rfl, rfl, rfl, rfl, rfl, rfl⟩
  · simp only [pure, Except.pure, Except.ok.injEq] at h
    subst h
    exact ⟨rfl, rfl, rfl, rfl, rfl, rfl, rfl, rfl, rfl, rfl⟩

theorem stageSubclass_total (o : Oracle) (cd : ClassD) (d : Draft) :
    ∃ r, stageSubclass o cd d = Except.ok r := by
  unfold stageSubclass
  split
  · split
    · exact ⟨d, rfl⟩
    · dsimp only
      split
      · exact ⟨_, rfl⟩
      · rename_i hel
        have hne : (cd.subclasses.map (fun p => p.2)).filter
            (fun sc =>
              decide ((match sc.featureLevels.min? with
                | some m => m
                | none => 3) ≤ d.level)) ≠ [] := by
          intro hnil
          rw [hnil] at hel
          simp [List.isEmpty] at hel
        rcases pyChoice_total o.subclassPick _ hne with ⟨a, ha⟩
        refine ⟨lockField { d with subclass := some a.index } "subclass" false, ?_⟩
        simp only [Bind.bind, Except.bind, pure, Except.pure, ha]
  · exact ⟨_, rfl⟩

theorem stageBackground_frame (ds : Dataset) (o : Oracle) (d d1 : Draft)
    (h : stageBackground ds o d = Except.ok d1) :
    d1.characterClass = d.characterClass ∧ d1.race = d.race ∧
    d1.level = d.level ∧ d1.subrace = d.subrace ∧ d1.subclass = d.subclass ∧
    d1.alignment = d.alignment ∧ d1.gender = d.gender ∧ d1.name = d.name ∧
    d1.spellsKnown = d.spellsKnown ∧ d1.spellsPrepared = d.spellsPrepared := by
  unfold stageBackground at h
  split at h
  · simp only [pure, Except.pure, Except.ok.injEq] at h
    subst h
    exact ⟨rfl, rfl, rfl, rfl, rfl, rfl, rfl, rfl, rfl, rfl⟩
  · split at h
    · simp only [pure, Except.pure, Except.ok.injEq] at h
      subst h
      exact ⟨rfl, rfl, rfl, rfl, rfl, rfl, rfl, rfl, rfl, rfl⟩
    · simp only [Bind.bind, Except.bind] at h
      rcases hbl : ds.backgrounds.map (fun p => p.2) with _ | ⟨b0, brest⟩
      · rw [hbl] at h
        simp [pyChoice] at h
      · rw [hbl] at h
        simp only [pyChoice, pure, Except.pure, lockField_eq,
          Except.ok.injEq] at h
        subst h
        exact ⟨rfl, rfl, rfl, rfl, rfl, rfl, rfl, rfl, rfl, rfl⟩

theorem stageBackground_total (ds : Dataset) (o : Oracle) (d : Draft) :
    ∃ r, stageBackground ds o d = Except.ok r := by
  unfold stageBackground
  split
  · exact ⟨d, rfl⟩
  · split
    · exact ⟨_, rfl⟩
    · rename_i hne
      have hmap : ds.backgrounds.map (fun p => p.2) ≠ [] := by
        intro hnil
        rw [List.map_eq_nil_iff] at hnil
        rw [hnil] at hne
        simp [List.isEmpty] at hne
      rcases pyChoice_total o.backgroundPick _ hmap with ⟨a, ha⟩
      refine ⟨lockField { d with background := some a.index } "background" false, ?_⟩
      simp only [Bind.bind, Except.bind, pure, Except.pure, ha]

theorem stageAlignment_frame (ds : Dataset) (o : Oracle) (d d1 : Draft)
    (h : stageAlignment ds o d = Except.ok d1) :
    d1.characterClass = d.characterClass ∧ d1.race = d.race ∧
    d1.level = d.level ∧ d1.subrace = d.subrace ∧ d1.subclass = d.subclass ∧
    d1.background = d.background ∧ d1.gender = d.gender ∧ d1.name = d.name ∧
    d1.spellsKnown = d.spellsKnown ∧ d1.spellsPrepared = d.spellsPrepared := by
  unfold stageAlignment at h
  split at h
  · simp only [pure, Except.pure, Except.ok.injEq] at h
    subst h
    exact ⟨rfl, rfl, rfl, rfl, rfl, rfl, rfl, rfl, rfl, rfl⟩
  · split at h
    · simp only [pure, Except.pure, lockField_eq, Except.ok.injEq] at h
      subst h
      exact ⟨rfl, rfl, rfl, rfl, rfl, rfl, rfl, rfl, rfl, rfl⟩
    · simp only [Bind.bind, Except.bind] at h
      rcases hal : ds.alignments with _ | ⟨a0, arest⟩
      · rw [hal] at h
        simp [pyChoice] at h
      · rw [hal] at h
        simp only [pyChoice, pure, Except.pure, lockField_eq,
          Except.ok.injEq] at h
        subst h
        exact ⟨rfl, rfl, rfl, rfl, rfl, rfl, rfl, rfl, rfl, rfl⟩

theorem stageAlignment_total (ds : Dataset) (o : Oracle) (d : Draft) :
    ∃ r, stageAlignment ds o d = Except.ok r := by
  unfold stageAlignment
  split
  · exact ⟨d, rfl⟩
  · split
    · exact ⟨_, rfl⟩
    · rename_i hne
      have hmap : ds.alignments ≠ [] := by
        intro hnil
        rw [hnil] at hne
        simp [List.isEmpty] at hne
      rcases pyChoice_total o.alignmentPick _ hmap with ⟨a, ha⟩
      refine ⟨lockField { d with alignment := some a } "alignment" false, ?_⟩
      simp only [Bind.bind, Except.bind, pure, Except.pure, ha]

theorem stageGender_frame (o : Oracle) (d d1 : Draft) (g : String)
    (h : stageGender o d = Except.ok (d1, g)) :
    d1.characterClass = d.characterClass ∧ d1.race = d.race ∧
    d1.level = d.level ∧ d1.subrace = d.subrace ∧ d1.subclass = d.subclass ∧
    d1.background = d.background ∧ d1.alignment = d.alignment ∧
    d1.name = d.name ∧
    d1.spellsKnown = d.spellsKnown ∧ d1.spellsPrepared = d.spellsPrepared := by
  unfold stageGender at h
  split at h
  · simp only [pure, Except.pure, Except.ok.injEq, Prod.mk.injEq] at h
    rcases h with ⟨hd1, _⟩
    subst hd1
    exact ⟨rfl, rfl, rfl, rfl, rfl, rfl, rfl, rfl, rfl, rfl⟩
  · simp only [Bind.bind, Except.bind, pyChoice, pure, Except.pure,
      lockField_eq, Except.ok.injEq, Prod.mk.injEq] at h
    rcases h with ⟨hd1, _⟩
    subst hd1
    exact ⟨rfl, rfl, rfl, rfl, rfl, rfl, rfl, rfl, rfl, rfl⟩

theorem stageGender_total (o : Oracle) (d : Draft) :
    ∃ r, stageGender o d = Except.ok r := by
  unfold stageGender
  split
  · exact ⟨_, rfl⟩
  · exact ⟨_, rfl⟩
@[simp]
theorem applyStandardArray_name (cd : Option ClassD) (d : Draft) :
    (applyStandardArray cd d).name = d.name := rfl

@[simp]
theorem applyStandardArray_level (cd : Option ClassD) (d : Draft) :
    (applyStandardArray cd d).level = d.level := rfl

@[simp]
theorem applyStandardArray_race (cd : Option ClassD) (d : Draft) :
    (applyStandardArray cd d).race = d.race := rfl

@[simp]
theorem applyStandardArray_subrace (cd : Option ClassD) (d : Draft) :
    (applyStandardArray cd d).subrace = d.subrace := rfl

@[simp]
theorem applyStandardArray_background (cd : Option ClassD) (d : Draft) :
    (applyStandardArray cd d).background = d.background := rfl

@[simp]
theorem applyStandardArray_characterClass (cd : Option ClassD) (d : Draft) :
    (applyStandardArray cd d).characterClass = d.characterClass := rfl

@[simp]
theorem applyStandardArray_subclass (cd : Option ClassD) (d : Draft) :
    (applyStandardArray cd d).subclass = d.subclass := rfl

@[simp]
theorem applyStandardArray_alignment (cd : Option ClassD) (d : Draft) :
    (applyStandardArray cd d).alignment = d.alignment := rfl

@[simp]
theorem applyStandardArray_gender (cd : Option ClassD) (d : Draft) :
    (applyStandardArray cd d).gender = d.gender := rfl

@[simp]
theorem applyStandardArray_spellsKnown (cd : Option ClassD) (d : Draft) :
    (applyStandardArray cd d).spellsKnown = d.spellsKnown := rfl

@[simp]
theorem applyStandardArray_spellsPrepared (cd : Option ClassD) (d : Draft) :
    (applyStandardArray cd d).spellsPrepared = d.spellsPrepared := rfl

@[simp]
theorem recalcRacialBonuses_name (ds : Dataset) (d : Draft) :
    (recalcRacialBonuses ds d).name = d.name := rfl

@[simp]
theorem recalcRacialBonuses_level (ds : Dataset) (d : Draft) :
    (recalcRacialBonuses ds d).level = d.level := rfl

@[simp]
theorem recalcRacialBonuses_race (ds : Dataset) (d : Draft) :
    (recalcRacialBonuses ds d).race = d.race := rfl

@[simp]
theorem recalcRacialBonuses_subrace (ds : Dataset) (d : Draft) :
    (recalcRacialBonuses ds d).subrace = d.subrace := rfl

@[simp]
theorem recalcRacialBonuses_background (ds : Dataset) (d : Draft) :
    (recalcRacialBonuses ds d).background = d.background := rfl

@[simp]
theorem recalcRacialBonuses_characterClass (ds : Dataset) (d : Draft) :
    (recalcRacialBonuses ds d).characterClass = d.characterClass := rfl

@[simp]
theorem recalcRacialBonuses_subclass (ds : Dataset) (d : Draft) :
    (recalcRacialBonuses ds d).subclass = d.subclass := rfl

@[simp]
theorem recalcRacialBonuses_alignment (ds : Dataset) (d : Draft) :
    (recalcRacialBonuses ds d).alignment = d.alignment := rfl

@[simp]
theorem recalcRacialBonuses_gender (ds : Dataset) (d : Draft) :
    (recalcRacialBonuses ds d).gender = d.gender := rfl

@[simp]
theorem recalcRacialBonuses_spellsKnown (ds : Dataset) (d : Draft) :
    (recalcRacialBonuses ds d).spellsKnown = d.spellsKnown := rfl

@[simp]
theorem recalcRacialBonuses_spellsPrepared (ds : Dataset) (d : Draft) :
    (recalcRacialBonuses ds d).spellsPrepared = d.spellsPrepared := rfl

@[simp]
theorem rebuildChoiceGroups_name (ds : Dataset) (vm : VM) :
    (rebuildChoiceGroups ds vm).draft.name = vm.draft.name := rfl

@[simp]
theorem rebuildChoiceGroups_level (ds : Dataset) (vm : VM) :
    (rebuildChoiceGroups ds vm).draft.level = vm.draft.level := rfl

@[simp]
theorem rebuildChoiceGroups_race (ds : Dataset) (vm : VM) :
    (rebuildChoiceGroups ds vm).draft.race = vm.draft.race := rfl

@[simp]
theorem rebuildChoiceGroups_subrace (ds : Dataset) (vm : VM) :
    (rebuildChoiceGroups ds vm).draft.subrace = vm.draft.subrace := rfl

@[simp]
theorem rebuildChoiceGroups_background (ds : Dataset) (vm : VM) :
    (rebuildChoiceGroups ds vm).draft.background = vm.draft.background := rfl

@[simp]
theorem rebuildChoiceGroups_characterClass (ds : Dataset) (vm : VM) :
    (rebuildChoiceGroups ds vm).draft.characterClass = vm.draft.characterClass := rfl

@[simp]
theorem rebuildChoiceGroups_subclass (ds : Dataset) (vm : VM) :
    (rebuildChoiceGroups ds vm).draft.subclass = vm.draft.subclass := rfl

@[simp]
theorem rebuildChoiceGroups_alignment (ds : Dataset) (vm : VM) :
    (rebuildChoiceGroups ds vm).draft.alignment = vm.draft.alignment := rfl

@[simp]
theorem rebuildChoiceGroups_gender (ds : Dataset) (vm : VM) :
    (rebuildChoiceGroups ds vm).draft.gender = vm.draft.gender := rfl

@[simp]
theorem rebuildChoiceGroups_spellsKnown (ds : Dataset) (vm : VM) :
    (rebuildChoiceGroups ds vm).draft.spellsKnown = vm.draft.spellsKnown := rfl

@[simp]
theorem rebuildChoiceGroups_spellsPrepared (ds : Dataset) (vm : VM) :
    (rebuildChoiceGroups ds vm).draft.spellsPrepared = vm.draft.spellsPrepared := rfl

@[simp]
theorem autoPopulateChoiceSelections_name (o : Oracle) (ow : Bool) (vm : VM) :
    (autoPopulateChoiceSelections o ow vm).draft.name = vm.draft.name := by
  unfold autoPopulateChoiceSelections
  split <;> rfl

@[simp]
theorem autoPopulateChoiceSelections_level (o : Oracle) (ow : Bool) (vm : VM) :
    (autoPopulateChoiceSelections o ow vm).draft.level = vm.draft.level := by
  unfold autoPopulateChoiceSelections
  split <;> rfl

@[simp]
theorem autoPopulateChoiceSelections_race (o : Oracle) (ow : Bool) (vm : VM) :
    (autoPopulateChoiceSelections o ow vm).draft.race = vm.draft.race := by
  unfold autoPopulateChoiceSelections
  split <;> rfl

@[simp]
theorem autoPopulateChoiceSelections_subrace (o : Oracle) (ow : Bool) (vm : VM) :
    (autoPopulateChoiceSelections o ow vm).draft.subrace = vm.draft.subrace := by
  unfold autoPopulateChoiceSelections
  split <;> rfl

@[simp]
theorem autoPopulateChoiceSelections_background (o : Oracle) (ow : Bool) (vm : VM) :
    (autoPopulateChoiceSelections o ow vm).draft.background = vm.draft.background := by
  unfold autoPopulateChoiceSelections
  split <;> rfl

@[simp]
theorem autoPopulateChoiceSelections_characterClass (o : Oracle) (ow : Bool) (vm : VM) :
    (autoPopulateChoiceSelections o ow vm).draft.characterClass = vm.draft.characterClass := by
  unfold autoPopulateChoiceSelections
  split <;> rfl

@[simp]
theorem autoPopulateChoiceSelections_subclass (o : Oracle) (ow : Bool) (vm : VM) :
    (autoPopulateChoiceSelections o ow vm).draft.subclass = vm.draft.subclass := by
  unfold autoPopulateChoiceSelections
  split <;> rfl

@[simp]
theorem autoPopulateChoiceSelections_alignment (o : Oracle) (ow : Bool) (vm : VM) :
    (autoPopulateChoiceSelections o ow vm).draft.alignment = vm.draft.alignment := by
  unfold autoPopulateChoiceSelections
  split <;> rfl

@[simp]
theorem autoPopulateChoiceSelections_gender (o : Oracle) (ow : Bool) (vm : VM) :
    (autoPopulateChoiceSelections o ow vm).draft.gender = vm.draft.gender := by
  unfold autoPopulateChoiceSelections
  split <;> rfl

@[simp]
theorem autoPopulateChoiceSelections_spellsKnown (o : Oracle) (ow : Bool) (vm : VM) :
    (autoPopulateChoiceSelections o ow vm).draft.spellsKnown = vm.draft.spellsKnown := by
  unfold autoPopulateChoiceSelections
  split <;> rfl

@[simp]
theorem autoPopulateChoiceSelections_spellsPrepared (o : Oracle) (ow : Bool) (vm : VM) :
    (autoPopulateChoiceSelections o ow vm).draft.spellsPrepared = vm.draft.spellsPrepared := by
  unfold autoPopulateChoiceSelections
  split <;> rfl

@[simp]
theorem autoAssignSpells_name (ds : Dataset) (cd : Option ClassD) (o : Oracle) (d : Draft) :
    (autoAssignSpells ds cd o d).name = d.name := by
  unfold autoAssignSpells
  dsimp only
  repeat' split
  all_goals rfl

@[simp]
theorem autoAssignSpells_level (ds : Dataset) (cd : Option ClassD) (o : Oracle) (d : Draft) :
    (autoAssignSpells ds cd o d).level = d.level := by
  unfold autoAssignSpells
  dsimp only
  repeat' split
  all_goals rfl

@[simp]
theorem autoAssignSpells_race (ds : Dataset) (cd : Option ClassD) (o : Oracle) (d : Draft) :
    (autoAssignSpells ds cd o d).race = d.race := by
  unfold autoAssignSpells
  dsimp only
  repeat' split
  all_goals rfl

@[simp]
theorem autoAssignSpells_subrace (ds : Dataset) (cd : Option ClassD) (o : Oracle) (d : Draft) :
    (autoAssignSpells ds cd o d).subrace = d.subrace := by
  unfold autoAssignSpells
  dsimp only
  repeat' split
  all_goals rfl

@[simp]
theorem autoAssignSpells_background (ds : Dataset) (cd : Option ClassD) (o : Oracle) (d : Draft) :
    (autoAssignSpells ds cd o d).background = d.background := by
  unfold autoAssignSpells
  dsimp only
  repeat' split
  all_goals rfl

@[simp]
theorem autoAssignSpells_characterClass (ds : Dataset) (cd : Option ClassD) (o : Oracle) (d : Draft) :
    (autoAssignSpells ds cd o d).characterClass = d.characterClass := by
  unfold autoAssignSpells
  dsimp only
  repeat' split
  all_goals rfl

@[simp]
theorem autoAssignSpells_subclass (ds : Dataset) (cd : Option ClassD) (o : Oracle) (d : Draft) :
    (autoAssignSpells ds cd o d).subclass = d.subclass := by
  unfold autoAssignSpells
  dsimp only
  repeat' split
  all_goals rfl

@[simp]
theorem autoAssignSpells_alignment (ds : Dataset) (cd : Option ClassD) (o : Oracle) (d : Draft) :
    (autoAssignSpells ds cd o d).alignment = d.alignment := by
  unfold autoAssignSpells
  dsimp only
  repeat' split
  all_goals rfl

@[simp]
theorem autoAssignSpells_gender (ds : Dataset) (cd : Option ClassD) (o : Oracle) (d : Draft) :
    (autoAssignSpells ds cd o d).gender = d.gender := by
  unfold autoAssignSpells
  dsimp only
  repeat' split
  all_goals rfl

@[simp]
theorem lockField_race (d : Draft) (f : String) (b : Bool) :
    (lockField d f b).race = d.race := by cases b <;> rfl

@[simp]
theorem lockField_subrace (d : Draft) (f : String) (b : Bool) :
    (lockField d f b).subrace = d.subrace := by cases b <;> rfl

@[simp]
theorem lockField_background (d : Draft) (f : String) (b : Bool) :
    (lockField d f b).background = d.background := by cases b <;> rfl

@[simp]
theorem lockField_characterClass (d : Draft) (f : String) (b : Bool) :
    (lockField d f b).characterClass = d.characterClass := by cases b <;> rfl

@[simp]
theorem lockField_subclass (d : Draft) (f : String) (b : Bool) :
    (lockField d f b).subclass = d.subclass := by cases b <;> rfl

@[simp]
theorem lockField_alignment (d : Draft) (f : String) (b : Bool) :
    (lockField d f b).alignment = d.alignment := by cases b <;> rfl

@[simp]
theorem lockField_gender (d : Draft) (f : String) (b : Bool) :
    (lockField d f b).gender = d.gender := by cases b <;> rfl

@[simp]
theorem lockField_spellsKnown (d : Draft) (f : String) (b : Bool) :
    (lockField d f b).spellsKnown = d.spellsKnown := by cases b <;> rfl

@[simp]
theorem lockField_spellsPrepared (d : Draft) (f : String) (b : Bool) :
    (lockField d f b).spellsPrepared = d.spellsPrepared := by cases b <;> rfl
attribute [simp] lockField_name lockField_level

@[simp]
theorem stageName_level (o : Oracle) (race : RaceD) (g : String) (d : Draft) :
    (stageName o race g d).level = d.level := by
  unfold stageName
  split <;> simp

@[simp]
theorem stageName_race (o : Oracle) (race : RaceD) (g : String) (d : Draft) :
    (stageName o race g d).race = d.race := by
  unfold stageName
  split <;> simp

@[simp]
theorem stageName_subrace (o : Oracle) (race : RaceD) (g : String) (d : Draft) :
    (stageName o race g d).subrace = d.subrace := by
  unfold stageName
  split <;> simp

@[simp]
theorem stageName_background (o : Oracle) (race : RaceD) (g : String) (d : Draft) :
    (stageName o race g d).background = d.background := by
  unfold stageName
  split <;> simp

@[simp]
theorem stageName_characterClass (o : Oracle) (race : RaceD) (g : String) (d : Draft) :
    (stageName o race g d).characterClass = d.characterClass := by
  unfold stageName
  split <;> simp

@[simp]
theorem stageName_subclass (o : Oracle) (race : RaceD) (g : String) (d : Draft) :
    (stageName o race g d).subclass = d.subclass := by
  unfold stageName
  split <;> simp

@[simp]
theorem stageName_alignment (o : Oracle) (race : RaceD) (g : String) (d : Draft) :
    (stageName o race g d).alignment = d.alignment := by
  unfold stageName
  split <;> simp

@[simp]
theorem stageName_gender (o : Oracle) (race : RaceD) (g : String) (d : Draft) :
    (stageName o race g d).gender = d.gender := by
  unfold stageName
  split <;> simp

@[simp]
theorem stageName_spellsKnown (o : Oracle) (race : RaceD) (g : String) (d : Draft) :
    (stageName o race g d).spellsKnown = d.spellsKnown := by
  unfold stageName
  split <;> simp

@[simp]
theorem stageName_spellsPrepared (o : Oracle) (race : RaceD) (g : String) (d : Draft) :
    (stageName o race g d).spellsPrepared = d.spellsPrepared := by
  unfold stageName
  split <;> simp

@[simp]
theorem stageResets_name (d : Draft) :
    (stageResets d).name = d.name := by
  unfold stageResets
  dsimp only
  repeat' split
  all_goals rfl

@[simp]
theorem stageResets_level (d : Draft) :
    (stageResets d).level = d.level := by
  unfold stageResets
  dsimp only
  repeat' split
  all_goals rfl

@[simp]
theorem stageResets_race (d : Draft) :
    (stageResets d).race = d.race := by
  unfold stageResets
  dsimp only
  repeat' split
  all_goals rfl

@[simp]
theorem stageResets_subrace (d : Draft) :
    (stageResets d).subrace = d.subrace := by
  unfold stageResets
  dsimp only
  repeat' split
  all_goals rfl

@[simp]
theorem stageResets_background (d : Draft) :
    (stageResets d).background = d.background := by
  unfold stageResets
  dsimp only
  repeat' split
  all_goals rfl

@[simp]
theorem stageResets_characterClass (d : Draft) :
    (stageResets d).characterClass = d.characterClass := by
  unfold stageResets
  dsimp only
  repeat' split
  all_goals rfl

@[simp]
theorem stageResets_subclass (d : Draft) :
    (stageResets d).subclass = d.subclass := by
  unfold stageResets
  dsimp only
  repeat' split
  all_goals rfl

@[simp]
theorem stageResets_alignment (d : Draft) :
    (stageResets d).alignment = d.alignment := by
  unfold stageResets
  dsimp only
  repeat' split
  all_goals rfl

@[simp]
theorem stageResets_gender (d : Draft) :
    (stageResets d).gender = d.gender := by
  unfold stageResets
  dsimp only
  repeat' split
  all_goals rfl

@[simp]
theorem stageEquipment_name (ds : Dataset) (cd : ClassD) (d : Draft) :
    (stageEquipment ds cd d).name = d.name := by
  unfold stageEquipment
  dsimp only
  repeat' split
  all_goals simp

@[simp]
theorem stageEquipment_level (ds : Dataset) (cd : ClassD) (d : Draft) :
    (stageEquipment ds cd d).level = d.level := by
  unfold stageEquipment
  dsimp only
  repeat' split
  all_goals simp

@[simp]
theorem stageEquipment_race (ds : Dataset) (cd : ClassD) (d : Draft) :
    (stageEquipment ds cd d).race = d.race := by
  unfold stageEquipment
  dsimp only
  repeat' split
  all_goals simp

@[simp]
theorem stageEquipment_subrace (ds : Dataset) (cd : ClassD) (d : Draft) :
    (stageEquipment ds cd d).subrace = d.subrace := by
  unfold stageEquipment
  dsimp only
  repeat' split
  all_goals simp

@[simp]
theorem stageEquipment_background (ds : Dataset) (cd : ClassD) (d : Draft) :
    (stageEquipment ds cd d).background = d.background := by
  unfold stageEquipment
  dsimp only
  repeat' split
  all_goals simp

@[simp]
theorem stageEquipment_characterClass (ds : Dataset) (cd : ClassD) (d : Draft) :
    (stageEquipment ds cd d).characterClass = d.characterClass := by
  unfold stageEquipment
  dsimp only
  repeat' split
  all_goals simp

@[simp]
theorem stageEquipment_subclass (ds : Dataset) (cd : ClassD) (d : Draft) :
    (stageEquipment ds cd d).subclass = d.subclass := by
  unfold stageEquipment
  dsimp only
  repeat' split
  all_goals simp

@[simp]
theorem stageEquipment_alignment (ds : Dataset) (cd : ClassD) (d : Draft) :
    (stageEquipment ds cd d).alignment = d.alignment := by
  unfold stageEquipment
  dsimp only
  repeat' split
  all_goals simp

@[simp]
theorem stageEquipment_gender (ds : Dataset) (cd : ClassD) (d : Draft) :
    (stageEquipment ds cd d).gender = d.gender := by
  unfold stageEquipment
  dsimp only
  repeat' split
  all_goals simp

@[simp]
theorem stageEquipment_spellsKnown (ds : Dataset) (cd : ClassD) (d : Draft) :
    (stageEquipment ds cd d).spellsKnown = d.spellsKnown := by
  unfold stageEquipment
  dsimp only
  repeat' split
  all_goals simp

@[simp]
theorem stageEquipment_spellsPrepared (ds : Dataset) (cd : ClassD) (d : Draft) :
    (stageEquipment ds cd d).spellsPrepared = d.spellsPrepared := by
  unfold stageEquipment
  dsimp only
  repeat' split
  all_goals simp

@[simp]
theorem stageFinal_name (ds : Dataset) (o : Oracle) (d : Draft) :
    (stageFinal ds o d).draft.name = d.name := by
  unfold stageFinal
  dsimp only
  repeat' split
  all_goals simp

@[simp]
theorem stageFinal_level (ds : Dataset) (o : Oracle) (d : Draft) :
    (stageFinal ds o d).draft.level = d.level := by
  unfold stageFinal
  dsimp only
  repeat' split
  all_goals simp

@[simp]
theorem stageFinal_race (ds : Dataset) (o : Oracle) (d : Draft) :
    (stageFinal ds o d).draft.race = d.race := by
  unfold stageFinal
  dsimp only
  repeat' split
  all_goals simp

@[simp]
theorem stageFinal_subrace (ds : Dataset) (o : Oracle) (d : Draft) :
    (stageFinal ds o d).draft.subrace = d.subrace := by
  unfold stageFinal
  dsimp only
  repeat' split
  all_goals simp

@[simp]
theorem stageFinal_background (ds : Dataset) (o : Oracle) (d : Draft) :
    (stageFinal ds o d).draft.background = d.background := by
  unfold stageFinal
  dsimp only
  repeat' split
  all_goals simp

@[simp]
theorem stageFinal_characterClass (ds : Dataset) (o : Oracle) (d : Draft) :
    (stageFinal ds o d).draft.characterClass = d.characterClass := by
  unfold stageFinal
  dsimp only
  repeat' split
  all_goals simp

@[simp]
theorem stageFinal_subclass (ds : Dataset) (o : Oracle) (d : Draft) :
    (stageFinal ds o d).draft.subclass = d.subclass := by
  unfold stageFinal
  dsimp only
  repeat' split
  all_goals simp

@[simp]
theorem stageFinal_alignment (ds : Dataset) (o : Oracle) (d : Draft) :
    (stageFinal ds o d).draft.alignment = d.alignment := by
  unfold stageFinal
  dsimp only
  repeat' split
  all_goals simp

@[simp]
theorem stageFinal_gender (ds : Dataset) (o : Oracle) (d : Draft) :
    (stageFinal ds o d).draft.gender = d.gender := by
  unfold stageFinal
  dsimp only
  repeat' split
  all_goals simp

theorem stageClass_locked (ds : Dataset) (o : Oracle) (d : Draft) (c : String)
    (cd : ClassD) (hl : isLocked d "class" = true)
    (hc : d.characterClass = some c) (hcne : c ≠ "")
    (hlook : lookupL ds.classes c = some cd) :
    stageClass ds o d = Except.ok (d, cd) := by
  have hcond : (isLocked d "class" && truthyOpt d.characterClass) = true := by
    simp [hl, hc, truthyOpt, hcne]
  unfold stageClass
  rw [hcond, hc]
  simp only [Option.getD_some, hlook]
  rfl

theorem stageRace_locked (ds : Dataset) (cd : ClassD) (o : Oracle)
    (d : Draft) (r : String)
    (rd : RaceD) (hl : isLocked d "race" = true)
    (hr : d.race = some r) (hrne : r ≠ "")
    (hlook : lookupL ds.races r = some rd) :
    stageRace ds cd o d = Except.ok (d, rd) := by
  have hcond : (isLocked d "race" && truthyOpt d.race) = true := by
    simp [hl, hr, truthyOpt, hrne]
  unfold stageRace
  rw [hcond, hr]
  simp only [Option.getD_some, hlook]
  rfl

theorem stageSubrace_locked_compat (o : Oracle) (race : RaceD) (cd : ClassD)
    (d : Draft)
    (s : String) (hl : isLocked d "subrace" = true) (hs : d.subrace = some s)
    (hlook : (lookupL race.subraces s).isSome = true) :
    stageSubrace o race cd d = Except.ok d := by
  have hne : race.subraces ≠ [] := by
    intro hnil
    rw [hnil] at hlook
    simp [lookupL, List.find?] at hlook
  unfold stageSubrace
  rw [if_pos, if_pos]
  · rfl
  · rw [hs]
    simp [hl, hlook]
  · simpa using hne

theorem stageSubrace_locked_empty (o : Oracle) (race : RaceD) (cd : ClassD)
    (d : Draft)
    (hempty : race.subraces = []) (hsub : d.subrace = none) :
    stageSubrace o race cd d = Except.ok d := by
  unfold stageSubrace
  rw [if_neg]
  · rw [show ({ d with subrace := none } : Draft) = d from by rw [← hsub]]
    rfl
  · simp [hempty]

theorem stageSubclass_locked_compat (o : Oracle) (cd : ClassD) (d : Draft)
    (s : String) (hl : isLocked d "subclass" = true) (hs : d.subclass = some s)
    (hlook : (lookupL cd.subclasses s).isSome = true) :
    stageSubclass o cd d = Except.ok d := by
  have hne : cd.subclasses ≠ [] := by
    intro hnil
    rw [hnil] at hlook
    simp [lookupL, List.find?] at hlook
  unfold stageSubclass
  rw [if_pos, if_pos]
  · rfl
  · rw [hs]
    simp [hl, hlook]
  · simpa using hne

theorem stageSubclass_locked_empty (o : Oracle) (cd : ClassD) (d : Draft)
    (hempty : cd.subclasses = []) (hsub : d.subclass = none) :
    stageSubclass o cd d = Except.ok d := by
  unfold stageSubclass
  rw [if_neg]
  · rw [show ({ d with subclass := none } : Draft) = d from by rw [← hsub]]
    rfl
  · simp [hempty]

theorem stageBackground_locked (ds : Dataset) (o : Oracle) (d : Draft)
    (hl : isLocked d "background" = true) (ht : truthyOpt d.background = true) :
    stageBackground ds o d = Except.ok d := by
  unfold stageBackground
  rw [if_pos]
  · rfl
  · simp [hl, ht]

theorem stageAlignment_locked (ds : Dataset) (o : Oracle) (d : Draft)
    (hl : isLocked d "alignment" = true) (ht : truthyOpt d.alignment = true) :
    stageAlignment ds o d = Except.ok d := by
  unfold stageAlignment
  rw [if_pos]
  · rfl
  · simp [hl, ht]

theorem stageGender_locked (o : Oracle) (d : Draft)
    (hl : isLocked d "gender" = true) (ht : truthyOpt d.gender = true) :
    stageGender o d = Except.ok (d, d.gender.getD "") := by
  unfold stageGender
  rw [if_pos]
  · rfl
  · simp [hl, ht]

theorem stageName_locked (o : Oracle) (race : RaceD) (g : String) (d : Draft)
    (hl : isLocked d "name" = true) : stageName o race g d = d := by
  unfold stageName
  rw [if_neg]
  simp [hl]

theorem stageResets_locked (d : Draft)
    (h1 : isLocked d "skills" = true) (h2 : isLocked d "spells" = true)
    (h3 : isLocked d "abilities" = true) (h4 : isLocked d "notes" = true) :
    stageResets d = d := by
  unfold stageResets
  simp [h1, h2, h3, h4]

theorem stageEquipment_locked (ds : Dataset) (cd : ClassD) (d : Draft)
    (h1 : isLocked d "equipment" = true) (h2 : isLocked d "currency" = true) :
    stageEquipment ds cd d = d := by
  unfold stageEquipment
  simp [h1, h2]

/-- The known/prepared invariant of the spell buckets: every prepared spell is
also known. -/
def spellInv (d : Draft) : Prop := d.spellsPrepared ⊆ d.spellsKnown

instance (d : Draft) : Decidable (spellInv d) := by
  unfold spellInv
  infer_instance

theorem toggleSpell_inv (d : Draft) (i : String) (k : SpellKind) (e : Bool)
    (hv : spellInv d) : spellInv (toggleSpell d i k e) := by
  unfold spellInv toggleSpell at *
  cases k <;> cases e <;> dsimp only
  · exact Finset.erase_subset_erase _ hv
  · exact hv.trans (Finset.subset_insert _ _)
  · exact (Finset.erase_subset _ _).trans hv
  · exact Finset.insert_subset_insert _ hv

theorem applyToggles_inv (calls : List ToggleCall) (d : Draft)
    (hv : spellInv d) : spellInv (applyToggles d calls) := by
  induction calls generalizing d with
  | nil => exact hv
  | cons c rest ih =>
    simp only [applyToggles, List.foldl_cons] at *
    exact ih _ (toggleSpell_inv _ _ _ _ hv)

theorem reset_spellInv (d : Draft) : spellInv (Draft.reset d) := by
  unfold spellInv Draft.reset initialDraft
  exact Finset.empty_subset _

theorem autoAssignSpells_inv (ds : Dataset) (cd : Option ClassD) (o : Oracle)
    (d : Draft) : spellInv (autoAssignSpells ds cd o d) := by
  unfold spellInv autoAssignSpells
  cases cd with
  | none => exact Finset.empty_subset _
  | some c =>
    dsimp only
    split
    · exact Finset.empty_subset _
    · exact Finset.subset_union_right

theorem stageResets_spellInv (d : Draft) (hv : spellInv d) :
    spellInv (stageResets d) := by
  unfold spellInv stageResets at *
  dsimp only
  repeat' split
  all_goals try dsimp only
  all_goals first
    | exact Finset.empty_subset _
    | exact hv

theorem stageEquipment_spellInv (ds : Dataset) (cd : ClassD) (d : Draft)
    (hv : spellInv d) : spellInv (stageEquipment ds cd d) := by
  unfold spellInv at *
  rw [stageEquipment_spellsKnown, stageEquipment_spellsPrepared]
  exact hv

theorem stageName_spellInv (o : Oracle) (race : RaceD) (g : String)
    (d : Draft) (hv : spellInv d) : spellInv (stageName o race g d) := by
  unfold spellInv at *
  rw [stageName_spellsKnown, stageName_spellsPrepared]
  exact hv

theorem stageFinal_spellInv (ds : Dataset) (o : Oracle) (d : Draft)
    (hv : spellInv d) : spellInv (stageFinal ds o d).draft := by
  unfold stageFinal
  dsimp only
  generalize (if truthyOpt d.characterClass = true then
      lookupL ds.classes (d.characterClass.getD "") else none) = cd2
  split
  · split
    · exact autoAssignSpells_inv _ _ _ _
    · unfold spellInv at *
      rw [autoPopulateChoiceSelections_spellsKnown,
        autoPopulateChoiceSelections_spellsPrepared,
        rebuildChoiceGroups_spellsKnown, rebuildChoiceGroups_spellsPrepared,
        recalcRacialBonuses_spellsKnown, recalcRacialBonuses_spellsPrepared,
        applyStandardArray_spellsKnown, applyStandardArray_spellsPrepared]
      exact hv
  · split
    · exact autoAssignSpells_inv _ _ _ _
    · unfold spellInv at *
      rw [autoPopulateChoiceSelections_spellsKnown,
        autoPopulateChoiceSelections_spellsPrepared,
        rebuildChoiceGroups_spellsKnown, rebuildChoiceGroups_spellsPrepared,
        recalcRacialBonuses_spellsKnown, recalcRacialBonuses_spellsPrepared]
      exact hv

theorem randomizeCharacter_spellInv (ds : Dataset) (o : Oracle) (vm vm2 : VM)
    (hv : spellInv vm.draft) (h : randomizeCharacter ds o vm = Except.ok vm2) :
    spellInv vm2.draft := by
  unfold randomizeCharacter at h
  split at h
  · simp only [pure, Except.pure, Except.ok.injEq] at h
    subst h
    exact hv
  · simp only [Bind.bind, Except.bind, pure, Except.pure] at h
    rcases h1 : stageClass ds o vm.draft with e | ⟨d1, cd⟩
    · rw [h1] at h
      simp at h
    rw [h1] at h
    dsimp only at h
    rcases h2 : stageRace ds cd o (stageLevel o d1) with e | ⟨d2, race⟩
    · rw [h2] at h
      simp at h
    rw [h2] at h
    dsimp only at h
    rcases h3 : stageSubrace o race cd d2 with e | d3
    · rw [h3] at h
      simp at h
    rw [h3] at h
    dsimp only at h
    rcases h4 : stageSubclass o cd d3 with e | d4
    · rw [h4] at h
      simp at h
    rw [h4] at h
    dsimp only at h
    rcases h5 : stageBackground ds o d4 with e | d5
    · rw [h5] at h
      simp at h
    rw [h5] at h
    dsimp only at h
    rcases h6 : stageAlignment ds o d5 with e | d6
    · rw [h6] at h
      simp at h
    rw [h6] at h
    dsimp only at h
    rcases h7 : stageGender o d6 with e | ⟨d7, g⟩
    · rw [h7] at h
      simp at h
    rw [h7] at h
    dsimp only at h
    rw [Except.ok.injEq] at h
    subst h
    have i1 : spellInv d1 := by
      rcases stageClass_frame ds o vm.draft d1 cd h1 with
        ⟨-, -, -, -, -, -, -, -, -, -, hk, hp⟩
      unfold spellInv at *
      rw [hk, hp]
      exact hv
    have i1b : spellInv (stageLevel o d1) := by
      rcases stageLevel_frame o d1 with ⟨-, -, -, -, -, -, -, -, hk, hp, -⟩
      unfold spellInv at *
      rw [hk, hp]
      exact i1
    have i2 : spellInv d2 := by
      rcases stageRace_frame ds cd o (stageLevel o d1) d2 race h2 with
        ⟨-, -, -, -, -, -, -, -, -, hk, hp⟩
      unfold spellInv at *
      rw [hk, hp]
      exact i1b
    have i3 : spellInv d3 := by
      rcases stageSubrace_frame o race cd d2 d3 h3 with
        ⟨-, -, -, -, -, -, -, -, hk, hp⟩
      unfold spellInv at *
      rw [hk, hp]
      exact i2
    have i4 : spellInv d4 := by
      rcases stageSubclass_frame o cd d3 d4 h4 with
        ⟨-, -, -, -, -, -, -, -, hk, hp⟩
      unfold spellInv at *
      rw [hk, hp]
      exact i3
    have i5 : spellInv d5 := by
      rcases stageBackground_frame ds o d4 d5 h5 with
        ⟨-, -, -, -, -, -, -, -, hk, hp⟩
      unfold spellInv at *
      rw [hk, hp]
      exact i4
    have i6 : spellInv d6 := by
      rcases stageAlignment_frame ds o d5 d6 h6 with
        ⟨-, -, -, -, -, -, -, -, hk, hp⟩
      unfold spellInv at *
      rw [hk, hp]
      exact i5
    have i7 : spellInv d7 := by
      rcases stageGender_frame o d6 d7 g h7 with
        ⟨-, -, -, -, -, -, -, -, hk, hp⟩
      unfold spellInv at *
      rw [hk, hp]
      exact i6
    exact stageFinal_spellInv ds o _
      (stageEquipment_spellInv ds cd _
        (stageResets_spellInv _ (stageName_spellInv o race g d7 i7)))

/-- C1: starting from the initial draft (both spell buckets empty), after any
sequence of `toggle_spell` calls — and also after `reset`, after
`randomize_character`, and after `_auto_assign_spells` — the set of prepared
spells is a subset of the set of known spells; toggling `prepared` on also
adds the spell to `known`, and toggling `known` off also removes it from
`prepared`. -/
theorem claim1_spell_invariant :
    (∀ calls : List ToggleCall, spellInv (applyToggles initialDraft calls)) ∧
    (∀ (d : Draft) (i : String) (k : SpellKind) (e : Bool),
      spellInv d → spellInv (toggleSpell d i k e)) ∧
    (∀ (d : Draft) (i : String),
      pyLower i ∈ (toggleSpell d i SpellKind.prepared true).spellsKnown) ∧
    (∀ (d : Draft) (i : String),
      pyLower i ∉ (toggleSpell d i SpellKind.known false).spellsPrepared) ∧
    (∀ d : Draft, spellInv (Draft.reset d)) ∧
    (∀ (ds : Dataset) (cd : Option ClassD) (o : Oracle) (d : Draft),
      spellInv (autoAssignSpells ds cd o d)) ∧
    (∀ (ds : Dataset) (o : Oracle) (vm vm2 : VM), spellInv vm.draft →
      randomizeCharacter ds o vm = Except.ok vm2 → spellInv vm2.draft) := by
  refine ⟨?_, toggleSpell_inv, ?_, ?_, reset_spellInv, autoAssignSpells_inv,
    randomizeCharacter_spellInv⟩
  · intro calls
    exact applyToggles_inv calls initialDraft (Finset.empty_subset _)
  · intro d i
    unfold toggleSpell
    exact Finset.mem_insert_self _ _
  · intro d i
    unfold toggleSpell
    exact Finset.not_mem_erase _ _

/-- C2 counterexample: a dataset with one class and one race whose only
ability bonus is negative satisfies the premises of the claim (at least one race
and one class), yet `randomize_character` raises: the unlocked race draw
calls `random.choices` with a single negative weight
(`_score_race_for_class` returns `-5 * 2 or 1.0 = -10.0`), whose total is
not positive, so CPython raises `ValueError` instead of degrading to a
default pick. -/
theorem claim2_counterexample :
    exDsNeg.classes.isEmpty = false ∧ exDsNeg.races.isEmpty = false ∧
    (randomizeCharacter exDsNeg exOracle (VM.mk initialDraft [])).map
        (fun r => r.draft.characterClass) =
      Except.error "ValueError: Total of weights must be greater than zero" := by
  refine ⟨rfl, rfl, by decide⟩

/-- C2 (amended): over any dataset with at least one race and one class,
whose ability-bonus keys are well-formed (else the Python hits `KeyError`
while re-deriving racial bonuses) and whose racial/subracial ability bonuses
are non-negative (else the weighted race/subrace draw can raise `ValueError`
— see the counterexample; the SRD data satisfies both), `randomize_character`
terminates with a success value — lookup misses degrade to fallback picks
rather than erroring — and the resulting draft has a non-null class, a
non-null race, and a level in [1, 20].  The level hypothesis reflects that a
locked level is kept as-is: every level reachable through `set_level` or the
randomizer itself is already ≤ 20. -/
theorem claim2_randomize_total (ds : Dataset) (o : Oracle) (vm : VM)
    (hcls : ds.classes ≠ []) (hrace : ds.races ≠ [])
    (_hkeys : validAbilityKeys ds) (hnn : nonnegBonuses ds)
    (hlvl : isLocked vm.draft "level" = true → vm.draft.level ≤ 20) :
    ∃ vm2, randomizeCharacter ds o vm = Except.ok vm2 ∧
      vm2.draft.characterClass ≠ none ∧ vm2.draft.race ≠ none ∧
      1 ≤ vm2.draft.level ∧ vm2.draft.level ≤ 20 := by
  obtain ⟨⟨d1, cd⟩, h1⟩ := stageClass_total ds o vm.draft hcls
  have hwr : 0 < (raceWeights ds cd).sum := raceWeights_sum_pos ds cd hrace hnn.1
  obtain ⟨⟨d2, race⟩, h2⟩ := stageRace_total ds cd o (stageLevel o d1) hrace hwr
  have hracemem := stageRace_mem ds cd o (stageLevel o d1) d2 race h2
  have hws : race.subraces ≠ [] → 0 < (subraceWeights race cd).sum := by
    intro hne
    rcases List.mem_map.mp hracemem with ⟨p, hp, hpe⟩
    refine subraceWeights_sum_pos race cd hne ?_
    intro q hq b hb
    have hq2 : q ∈ p.2.subraces := by
      rw [hpe]
      exact hq
    exact hnn.2 p hp q hq2 b hb
  obtain ⟨d3, h3⟩ := stageSubrace_total o race cd d2 hws
  obtain ⟨d4, h4⟩ := stageSubclass_total o cd d3
  obtain ⟨d5, h5⟩ := stageBackground_total ds o d4
  obtain ⟨d6, h6⟩ := stageAlignment_total ds o d5
  obtain ⟨⟨d7, g⟩, h7⟩ := stageGender_total o d6
  rcases stageClass_frame ds o vm.draft d1 cd h1 with
    ⟨hc1, hl1, -, -, -, -, -, -, -, hlock1, -, -⟩
  rcases stageLevel_frame o d1 with ⟨hcL, -, -, -, -, -, -, -, -, -, -⟩
  rcases stageRace_frame ds cd o (stageLevel o d1) d2 race h2 with
    ⟨hr2, hc2, hl2, -, -, -, -, -, -, -, -⟩
  rcases stageSubrace_frame o race cd d2 d3 h3 with
    ⟨hc3, hr3, hl3, -, -, -, -, -, -, -⟩
  rcases stageSubclass_frame o cd d3 d4 h4 with
    ⟨hc4, hr4, hl4, -, -, -, -, -, -, -⟩
  rcases stageBackground_frame ds o d4 d5 h5 with
    ⟨hc5, hr5, hl5, -, -, -, -, -, -, -⟩
  rcases stageAlignment_frame ds o d5 d6 h6 with
    ⟨hc6, hr6, hl6, -, -, -, -, -, -, -⟩
  rcases stageGender_frame o d6 d7 g h7 with
    ⟨hc7, hr7, hl7, -, -, -, -, -, -, -⟩
  have hlevB := stageLevel_bounds o d1 (by rw [hlock1, hl1]; exact hlvl)
  refine ⟨stageFinal ds o
      (stageEquipment ds cd (stageResets (stageName o race g d7))), ?_, ?_, ?_, ?_, ?_⟩
  · unfold randomizeCharacter
    rw [if_neg (by simpa using hcls)]
    simp only [Bind.bind, Except.bind, pure, Except.pure, h1, h2, h3, h4, h5,
      h6, h7]
  · rw [stageFinal_characterClass, stageEquipment_characterClass,
      stageResets_characterClass, stageName_characterClass, hc7, hc6, hc5,
      hc4, hc3, hc2, hcL]
    exact hc1
  · rw [stageFinal_race, stageEquipment_race, stageResets_race, stageName_race,
      hr7, hr6, hr5, hr4, hr3]
    exact hr2
  · rw [stageFinal_level, stageEquipment_level, stageResets_level,
      stageName_level, hl7, hl6, hl5, hl4, hl3, hl2]
    exact hlevB.1
  · rw [stageFinal_level, stageEquipment_level, stageResets_level,
      stageName_level, hl7, hl6, hl5, hl4, hl3, hl2]
    exact hlevB.2

/-- Witness for C2 at the concrete one-race/one-class dataset, starting from
the fresh view-model. -/
theorem claim2_randomize_total_witness :
    ∃ vm2, randomizeCharacter exDsPlain exOracle (VM.mk initialDraft []) =
        Except.ok vm2 ∧
      vm2.draft.characterClass ≠ none ∧ vm2.draft.race ≠ none ∧
      1 ≤ vm2.draft.level ∧ vm2.draft.level ≤ 20 :=
  claim2_randomize_total exDsPlain exOracle (VM.mk initialDraft [])
    (by simp [exDsPlain]) (by simp [exDsPlain])
    (by unfold validAbilityKeys; decide)
    (by unfold nonnegBonuses; decide) (by decide)

/-- C8 counterexample: a draft with every randomization-lock field locked but
with its structural fields still unset is changed by `randomize_character`:
the class goes from `none` to `some "fighter"` (a locked-but-unresolvable
field is re-rolled, its lock cleared). -/
theorem claim8_counterexample :
    (allLockFields.all (fun f => isLocked exVM8bad.draft f)) = true ∧
    exVM8bad.draft.characterClass = none ∧
    (randomizeCharacter exDsPlain exOracle exVM8bad).map
      (fun r => r.draft.characterClass) = Except.ok (some "fighter") := by
  refine ⟨by decide, rfl, by decide⟩

/-- C8 (amended): if every randomization-lock field is locked AND every
locked structural field actually holds a truthy value the dataset can resolve
(class and race set, non-empty and present in the dataset; subrace/subclass
set to a compatible member exactly when the race/class offers any, `none`
otherwise; background, alignment and gender truthy; level positive), then
`randomize_character` succeeds and leaves race, subrace, class, subclass,
background, alignment, gender, name and level unchanged.  Without the
resolvability conditions the claim fails: a locked-but-unset field is
re-rolled (see the counterexample). -/
theorem claim8_locked_frame (ds : Dataset) (o : Oracle) (vm : VM)
    (hall : ∀ f ∈ allLockFields, isLocked vm.draft f = true)
    (c : String) (cd : ClassD)
    (hc : vm.draft.characterClass = some c) (hcne : c ≠ "")
    (hclook : lookupL ds.classes c = some cd)
    (r : String) (rd : RaceD)
    (hr : vm.draft.race = some r) (hrne : r ≠ "")
    (hrlook : lookupL ds.races r = some rd)
    (hsubE : rd.subraces = [] → vm.draft.subrace = none)
    (hsubC : rd.subraces ≠ [] →
      ∃ s, vm.draft.subrace = some s ∧ (lookupL rd.subraces s).isSome = true)
    (hscE : cd.subclasses = [] → vm.draft.subclass = none)
    (hscC : cd.subclasses ≠ [] →
      ∃ s, vm.draft.subclass = some s ∧ (lookupL cd.subclasses s).isSome = true)
    (hbg : truthyOpt vm.draft.background = true)
    (hal : truthyOpt vm.draft.alignment = true)
    (hg : truthyOpt vm.draft.gender = true)
    (hpos : 0 < vm.draft.level) :
    ∃ vm2, randomizeCharacter ds o vm = Except.ok vm2 ∧
      vm2.draft.race = vm.draft.race ∧
      vm2.draft.subrace = vm.draft.subrace ∧
      vm2.draft.characterClass = vm.draft.characterClass ∧
      vm2.draft.subclass = vm.draft.subclass ∧
      vm2.draft.background = vm.draft.background ∧
      vm2.draft.alignment = vm.draft.alignment ∧
      vm2.draft.gender = vm.draft.gender ∧
      vm2.draft.name = vm.draft.name ∧
      vm2.draft.level = vm.draft.level := by
  by_cases hcls : ds.classes.isEmpty = true
  · refine ⟨vm, ?_, rfl, rfl, rfl, rfl, rfl, rfl, rfl, rfl, rfl⟩
    unfold randomizeCharacter
    rw [if_pos hcls]
    rfl
  · have h1 := stageClass_locked ds o vm.draft c cd
      (hall "class" (by decide)) hc hcne hclook
    have hL := stageLevel_locked o vm.draft (hall "level" (by decide)) hpos
    have h2 := stageRace_locked ds cd o vm.draft r rd
      (hall "race" (by decide)) hr hrne hrlook
    have h3 : stageSubrace o rd cd vm.draft = Except.ok vm.draft := by
      rcases hsr : rd.subraces with _ | ⟨p, rest⟩
      · exact stageSubrace_locked_empty o rd cd vm.draft hsr (hsubE hsr)
      · obtain ⟨s, hs, hlook⟩ := hsubC (by rw [hsr]; simp)
        exact stageSubrace_locked_compat o rd cd vm.draft s
          (hall "subrace" (by decide)) hs hlook
    have h4 : stageSubclass o cd vm.draft = Except.ok vm.draft := by
      rcases hsc : cd.subclasses with _ | ⟨p, rest⟩
      · exact stageSubclass_locked_empty o cd vm.draft hsc (hscE hsc)
      · obtain ⟨s, hs, hlook⟩ := hscC (by rw [hsc]; simp)
        exact stageSubclass_locked_compat o cd vm.draft s
          (hall "subclass" (by decide)) hs hlook
    have h5 := stageBackground_locked ds o vm.draft
      (hall "background" (by decide)) hbg
    have h6 := stageAlignment_locked ds o vm.draft
      (hall "alignment" (by decide)) hal
    have h7 := stageGender_locked o vm.draft (hall "gender" (by decide)) hg
    have h8 := stageName_locked o rd (vm.draft.gender.getD "") vm.draft
      (hall "name" (by decide))
    have h9 := stageResets_locked vm.draft (hall "skills" (by decide))
      (hall "spells" (by decide)) (hall "abilities" (by decide))
      (hall "notes" (by decide))
    have h10 := stageEquipment_locked ds cd vm.draft
      (hall "equipment" (by decide)) (hall "currency" (by decide))
    refine ⟨stageFinal ds o vm.draft, ?_,
      stageFinal_race ds o vm.draft, stageFinal_subrace ds o vm.draft,
      stageFinal_characterClass ds o vm.draft, stageFinal_subclass ds o vm.draft,
      stageFinal_background ds o vm.draft, stageFinal_alignment ds o vm.draft,
      stageFinal_gender ds o vm.draft, stageFinal_name ds o vm.draft,
      stageFinal_level ds o vm.draft⟩
    unfold randomizeCharacter
    rw [if_neg hcls]
    simp only [Bind.bind, Except.bind, pure, Except.pure, h1, hL, h2, h3, h4,
      h5, h6, h7, h8, h9, h10]

/-- Witness for the amended C8: the fully locked, fully resolvable draft over
the one-race/one-class dataset survives `randomize_character` with all nine
structural fields intact. -/
theorem claim8_locked_frame_witness :
    ∃ vm2, randomizeCharacter exDsPlain exOracle exVM8ok = Except.ok vm2 ∧
      vm2.draft.race = exVM8ok.draft.race ∧
      vm2.draft.subrace = exVM8ok.draft.subrace ∧
      vm2.draft.characterClass = exVM8ok.draft.characterClass ∧
      vm2.draft.subclass = exVM8ok.draft.subclass ∧
      vm2.draft.background = exVM8ok.draft.background ∧
      vm2.draft.alignment = exVM8ok.draft.alignment ∧
      vm2.draft.gender = exVM8ok.draft.gender ∧
      vm2.draft.name = exVM8ok.draft.name ∧
      vm2.draft.level = exVM8ok.draft.level :=
  claim8_locked_frame exDsPlain exOracle exVM8ok (by decide)
    "fighter" exClassFighter rfl (by decide) rfl
    "human" exRacePlain rfl (by decide) rfl
    (fun _ => rfl) (fun h => absurd rfl h)
    (fun _ => rfl) (fun h => absurd rfl h)
    (by decide) (by decide) (by decide) (by decide)
